import Mathlib

/-!
Shallow embedding of the quantile-binning uncertainty evaluation core of
`kale/evaluate/uncertainty_metrics.py` and of
`quantile_binning_and_est_errors` from `kale/interpret/uncertainty_quantiles.py`.

Sample ids are natural numbers, error values are exact rationals, bin labels
are natural numbers.  Python exceptions (IndexError, KeyError, ValueError,
ZeroDivisionError, NotImplementedError) are modelled with `Except String`.
-/

namespace UncertaintyMetrics

/-- Python list indexing `l[i]`: the element, or an IndexError. -/
def pyIdx {α : Type} (l : List α) (i : ℕ) : Except String α :=
  match l.get? i with
  | some a => Except.ok a
  | none => Except.error "IndexError"

/-- `np.mean` over a nonempty list of rationals: sum divided by length. -/
def listMean (l : List ℚ) : ℚ := l.sum / (l.length : ℚ)

/-- A Python `for`-loop body that may raise, collecting one result per element
and propagating the first exception. -/
def exMapM {α β : Type} (f : α → Except String β) : List α → Except String (List β)
  | [] => Except.ok []
  | x :: xs =>
    match f x with
    | Except.error e => Except.error e
    | Except.ok y =>
      match exMapM f xs with
      | Except.error e => Except.error e
      | Except.ok ys => Except.ok (y :: ys)

/-- The source's linear-scan lookup
`list([val for key, val in true_errors_ti.items() if str(key) == str(id_)])[0]`:
the first value whose key matches, an IndexError when the id is absent. -/
def scanLookup (d : List (ℕ × ℚ)) (id_ : ℕ) : Except String ℚ :=
  match (d.filter (fun p => p.1 == id_)).head? with
  | some p => Except.ok p.2
  | none => Except.error "IndexError"

/-- Ids whose predicted bin label equals `j`, in insertion order:
`[key for key, val in pred_bins_ti.items() if str(j) == str(val)]`. -/
def binIds (binsMap : List (ℕ × ℕ)) (j : ℕ) : List ℕ :=
  (binsMap.filter (fun p => p.2 == j)).map Prod.fst

/-- Shared bin-grouping step of all three scorers: for each bin `0..num_bins-1`
look every grouped id up in the error map, raising on a missing id. -/
def groupErrors (errsMap : List (ℕ × ℚ)) (binsMap : List (ℕ × ℕ)) (numBins : ℕ) :
    Except String (List (List ℚ)) :=
  exMapM (fun j => exMapM (scanLookup errsMap) (binIds binsMap j)) (List.range numBins)

/-! ### `bin_wise_bound_eval` -/

/-- Membership test of `bin_wise_bound_eval`: bin 0 is `(0, bound[0]]`,
an interior bin `q` is `(bound[q-1], bound[q]]`, the last bin is
`(bound[last], ∞)`. -/
def boundMember (bounds : List ℚ) (numBins q : ℕ) (e : ℚ) : Bool :=
  if q = 0 then decide (0 < e ∧ e ≤ bounds.getD 0 0)
  else if q < numBins - 1 then decide (bounds.getD (q - 1) 0 < e ∧ e ≤ bounds.getD q 0)
  else decide (bounds.getD (q - 1) 0 < e)

/-- Number of in-bin samples whose error respects the bin's bound interval. -/
def innerBinCorrect (bounds : List ℚ) (numBins q : ℕ) (errs : List ℚ) : ℕ :=
  (errs.filter (boundMember bounds numBins q)).length

/-- Per-bin accuracy with the source's branch order: the zero-correct test is
taken first, the empty-bin test only second. -/
def accuracyBin (correct size : ℕ) : ℚ :=
  if correct = 0 then 0
  else if size = 0 then 1
  else (correct : ℚ) / (size : ℚ)

/-- Output of `bin_wise_bound_eval` for a single target. -/
structure BoundTargetResult where
  binsAcc : List ℚ
  binsSizes : List ℕ
  weightedAve : ℚ
  deriving Repr, DecidableEq

/-- The per-target body of `bin_wise_bound_eval`: group ids by predicted bin,
score each bin, then divide the size-weighted accuracy sum by the total size.
The source performs this division with no guard, so a target whose bins are
all empty raises ZeroDivisionError. -/
def boundEvalTarget (bounds : List ℚ) (errsMap : List (ℕ × ℚ))
    (binsMap : List (ℕ × ℕ)) (numBins : ℕ) : Except String BoundTargetResult :=
  match groupErrors errsMap binsMap numBins with
  | Except.error e => Except.error e
  | Except.ok errGroups =>
    let binsAcc := errGroups.enum.map (fun p =>
      accuracyBin (innerBinCorrect bounds numBins p.1 p.2) p.2.length)
    let binsSizes := errGroups.map List.length
    let weightedMean := (List.zipWith (fun a s => a * (s : ℚ)) binsAcc binsSizes).sum
    if binsSizes.sum = 0 then Except.error "ZeroDivisionError"
    else Except.ok ⟨binsAcc, binsSizes, weightedMean / ((binsSizes.sum : ℕ) : ℚ)⟩

/-- One row of a fold's per-sample view for one uncertainty type. -/
structure SRow where
  uid : ℕ
  target : ℤ
  fold : ℕ
  err : ℚ
  bin : ℕ
  deriving Repr, DecidableEq

/-- `dict(zip(true_errors_ti.uid, true_errors_ti[... " Error"]))` for one target. -/
def targetErrsMap (rows : List SRow) (t : ℤ) : List (ℕ × ℚ) :=
  (rows.filter (fun r => r.target == t)).map (fun r => (r.uid, r.err))

/-- `dict(zip(pred_bins_ti.uid, pred_bins_ti[... " Uncertainty bins"]))` for one target. -/
def targetBinsMap (rows : List SRow) (t : ℤ) : List (ℕ × ℕ) :=
  (rows.filter (fun r => r.target == t)).map (fun r => (r.uid, r.bin))

/-- The dictionary returned by `bin_wise_bound_eval` for one fold. -/
structure BoundFoldResult where
  meanAllTargets : ℚ
  meanAllBins : List ℚ
  meanAll : List (List ℚ)
  concatTargetsSep : List (List (List ℚ))
  deriving Repr, DecidableEq

/-- Cross-target weighted average for one bin, with the source's guard
`if weighted_mean_bin == 0 or total_weights_bin == 0: 0.0`. -/
def weightedAveBin (accs : List ℚ) (sizes : List ℕ) : ℚ :=
  let wm := (List.zipWith (fun a s => a * (s : ℚ)) accs sizes).sum
  let tw := (sizes.map (fun s => (s : ℚ))).sum
  if wm = 0 ∨ tw = 0 then 0 else wm / tw

/-- `bin_wise_bound_eval`: evaluates bound accuracy for every target of one
fold.  `foldBoundsAllTargets` is indexed positionally by target. -/
def bin_wise_bound_eval (foldBoundsAllTargets : List (List ℚ)) (rows : List SRow)
    (targets : List ℤ) (numBins : ℕ) : Except String BoundFoldResult :=
  match exMapM (fun p =>
      match pyIdx foldBoundsAllTargets p.1 with
      | Except.error e => Except.error e
      | Except.ok bounds =>
        boundEvalTarget bounds (targetErrsMap rows p.2) (targetBinsMap rows p.2) numBins)
    targets.enum with
  | Except.error e => Except.error e
  | Except.ok perTarget =>
    let allQsPerc := (List.range numBins).map (fun q =>
      perTarget.map (fun r => r.binsAcc.getD q 0))
    let allQsSize := (List.range numBins).map (fun q =>
      perTarget.map (fun r => r.binsSizes.getD q 0))
    Except.ok
      { meanAllTargets := listMean (perTarget.map BoundTargetResult.weightedAve)
        meanAllBins := List.zipWith weightedAveBin allQsPerc allQsSize
        meanAll := allQsPerc
        concatTargetsSep := perTarget.map (fun r =>
          (List.range numBins).map (fun q => [r.binsAcc.getD q 0])) }

/-! ### `bin_wise_errors` -/

/-- Output of `bin_wise_errors` for a single target: per-bin mean (skipped for
an empty bin), the raw per-bin error lists, and the mean over non-empty bins. -/
structure ErrTargetResult where
  binMeans : List (Option ℚ)
  binErrorLists : List (List ℚ)
  targetMean : ℚ
  deriving Repr, DecidableEq

/-- The per-target body of `bin_wise_errors`: the error dictionary is built
with every value already multiplied by `error_scaling_factor`; an empty bin is
skipped (`continue`), never recorded as zero. -/
def errorsTarget (errsMap : List (ℕ × ℚ)) (binsMap : List (ℕ × ℕ))
    (numBins : ℕ) (errorScalingFactor : ℚ) : Except String ErrTargetResult :=
  match groupErrors (errsMap.map (fun p => (p.1, p.2 * errorScalingFactor)))
      binsMap numBins with
  | Except.error e => Except.error e
  | Except.ok errGroups =>
    let binMeans := errGroups.map (fun errs =>
      if errs = [] then none else some (listMean errs))
    Except.ok ⟨binMeans, errGroups, listMean (binMeans.reduceOption)⟩

/-- The dictionary returned by `bin_wise_errors` for one fold. -/
structure ErrorFoldResult where
  meanAllTargets : ℚ
  meanAllBins : List (Option ℚ)
  allBins : List (List ℚ)
  concatTargetsSep : List (List (List (List ℚ)))
  deriving Repr, DecidableEq

/-- `bin_wise_errors`: mean error of every predicted bin for every target of
one fold.  A bin empty for every target yields `None` in `mean all bins`. -/
def bin_wise_errors (rows : List SRow) (numBins : ℕ) (targets : List ℤ)
    (errorScalingFactor : ℚ) : Except String ErrorFoldResult :=
  match exMapM (fun t =>
      errorsTarget (targetErrsMap rows t) (targetBinsMap rows t) numBins
        errorScalingFactor) targets with
  | Except.error e => Except.error e
  | Except.ok perTarget =>
    let allQsError := (List.range numBins).map (fun b =>
      perTarget.filterMap (fun r => r.binMeans.getD b none))
    Except.ok
      { meanAllTargets := listMean (perTarget.map ErrTargetResult.targetMean)
        meanAllBins := allQsError.map (fun x =>
          if x = [] then none else some (listMean x))
        allBins := allQsError
        concatTargetsSep := perTarget.map (fun r =>
          (List.range numBins).map (fun b =>
            if r.binErrorLists.getD b [] = [] then ([] : List (List ℚ))
            else [r.binErrorLists.getD b []])) }

/-! ### Ground-truth quantile partition and `bin_wise_jaccard` -/

/-- `np.quantile` with the default linear-interpolation method, on an already
sorted list: with virtual index `h = q * (n - 1)`, the result is
`a[⌊h⌋] + (h - ⌊h⌋) * (a[⌊h⌋ + 1] - a[⌊h⌋])` (the upper neighbour falling back
to the lower one at the top end). -/
def npQuantileSorted (a : List ℚ) (q : ℚ) : ℚ :=
  let h : ℚ := q * ((a.length : ℚ) - 1)
  let i : ℕ := (⌊h⌋).toNat
  let lo := a.getD i 0
  let hi := a.getD (i + 1) lo
  lo + (h - ((⌊h⌋ : ℤ) : ℚ)) * (hi - lo)

/-- `np.quantile`, which sorts its input internally. -/
def npQuantile (a : List ℚ) (q : ℚ) : ℚ :=
  npQuantileSorted (a.insertionSort (· ≤ ·)) q

/-- `np.arange(1/Q, 1, 1/Q)[:Q-1]` as exact rationals: `1/Q, …, (Q-1)/Q`. -/
def quantilePoints (Q : ℕ) : List ℚ :=
  (List.range (Q - 1)).map (fun k : ℕ => ((k : ℚ) + 1) / (Q : ℚ))

/-- `sorted(true_errors_ti.items(), key=lambda item: item[1])` projected to the
error values: the error values in nondecreasing order. -/
def sortedErrors (errsMap : List (ℕ × ℚ)) : List ℚ :=
  (errsMap.map Prod.snd).insertionSort (· ≤ ·)

/-- The ground-truth quantile thresholds of `bin_wise_jaccard`:
`[np.quantile(sorted_errors, q) for q in quantiles]`. -/
def gtThresholds (errsMap : List (ℕ × ℚ)) (Q : ℕ) : List ℚ :=
  (quantilePoints Q).map (fun q => npQuantile (sortedErrors errsMap) q)

/-- `[quantile_thresholds[0], quantile_thresholds[-1]]`, an IndexError on an
empty threshold list. -/
def combineThresholds (ts : List ℚ) : Except String (List ℚ) :=
  match ts.head?, ts.getLast? with
  | some a, some b => Except.ok [a, b]
  | _, _ => Except.error "IndexError"

/-- Grouping condition of the ground-truth quantile partition: group 0 is
`error ≤ t[0]`, an interior group `q` is `t[q-1] < error ≤ t[q]`, the final
group is `error > t[last]`. -/
def groupCond (ts : List ℚ) (q : ℕ) (e : ℚ) : Bool :=
  if q = 0 then decide (e ≤ ts.getD 0 0)
  else if q < ts.length then decide (ts.getD (q - 1) 0 < e ∧ e ≤ ts.getD q 0)
  else decide (ts.getD (q - 1) 0 < e)

/-- Id groups of the ground-truth quantile partition, in dictionary insertion
order: one group per index `0..len(thresholds)`. -/
def keyGroupsOf (ts : List ℚ) (entries : List (ℕ × ℚ)) : List (List ℕ) :=
  (List.range (ts.length + 1)).map (fun q =>
    (entries.filter (fun p => groupCond ts q p.2)).map Prod.fst)

/-- The ground-truth groups `bin_wise_jaccard` compares against: thresholds
from `num_bins_quantiles` error quantiles, collapsed to the outer two when
`combine_middle_bins` is set, then the partition rule applied. -/
def gtGroupsUsed (errsMap : List (ℕ × ℚ)) (numBinsQuantiles : ℕ)
    (combineMiddleBins : Bool) : Except String (List (List ℕ)) :=
  match (if combineMiddleBins then combineThresholds (gtThresholds errsMap numBinsQuantiles)
         else Except.ok (gtThresholds errsMap numBinsQuantiles)) with
  | Except.error e => Except.error e
  | Except.ok ts => Except.ok (keyGroupsOf ts errsMap)

/-- Modelled from the spec: `jaccard_similarity` (from
`kale.evaluate.similarity_metrics`, not under src/) returns
`|A ∩ B| / |A ∪ B|` between two id lists, with `0/0` treated as `0`. -/
def jaccard_similarity (l1 l2 : List ℕ) : ℚ :=
  let i := ((l1.filter (fun x => x ∈ l2)).dedup).length
  let u := ((l1 ++ l2).dedup).length
  if u = 0 then 0 else (i : ℚ) / (u : ℚ)

/-- Recall/precision rule of `bin_wise_jaccard` for one bin, with the source's
branch structure: an empty ground-truth group scores recall 1.0 and
precision 0.0 whatever the predicted group holds. -/
def recallPrecision (predKeys gtKeys : List ℕ) : ℚ × ℚ :=
  if gtKeys = [] then (1, 0)
  else
    let c := (predKeys.filter (fun el => el ∈ gtKeys)).length
    let recallVal := (c : ℚ) / (gtKeys.length : ℚ)
    let precisionVal :=
      if predKeys = [] ∧ 0 < gtKeys.length then 0
      else (c : ℚ) / (predKeys.length : ℚ)
    (recallVal, precisionVal)

/-- Predicted bin key groups after the `pred_bins_keys[::-1]` flip of
`bin_wise_jaccard`: index 0 is the worst-confidence bin. -/
def predGroupsR (binsMap : List (ℕ × ℕ)) (numBins : ℕ) : List (List ℕ) :=
  ((List.range numBins).map (binIds binsMap)).reverse

/-- Output of `bin_wise_jaccard` for a single target. -/
structure JaccTargetResult where
  jaccs : List ℚ
  recalls : List ℚ
  precisions : List ℚ
  deriving Repr, DecidableEq

/-- One iteration of the per-bin scoring loop of `bin_wise_jaccard`:
Python-index the reversed ground-truth groups (IndexError when short), take
the reversed predicted group, and score. -/
def jaccBinStep (predR gtR : List (List ℕ)) (b : ℕ) : Except String (ℚ × ℚ × ℚ) :=
  match pyIdx gtR b with
  | Except.error e => Except.error e
  | Except.ok gt =>
    Except.ok (jaccard_similarity (predR.getD b []) gt,
      recallPrecision (predR.getD b []) gt)

/-- The per-target body of `bin_wise_jaccard`: group ids by predicted bin
(looking every id's error up, which raises on a missing id), build the
ground-truth quantile groups, reverse both group lists, then score each bin.
Indexing the ground-truth groups follows Python list indexing and raises when
`num_bins` exceeds the number of ground-truth groups. -/
def jaccardTarget (errsMap : List (ℕ × ℚ)) (binsMap : List (ℕ × ℕ))
    (numBins numBinsQuantiles : ℕ) (combineMiddleBins : Bool) :
    Except String JaccTargetResult :=
  match groupErrors errsMap binsMap numBins with
  | Except.error e => Except.error e
  | Except.ok _predBinsErrors =>
    match gtGroupsUsed errsMap numBinsQuantiles combineMiddleBins with
    | Except.error e => Except.error e
    | Except.ok keyGroups =>
      match exMapM (jaccBinStep (predGroupsR binsMap numBins) keyGroups.reverse)
        (List.range numBins) with
      | Except.error e => Except.error e
      | Except.ok vals =>
        Except.ok ⟨vals.map (fun v => v.1), vals.map (fun v => v.2.1),
          vals.map (fun v => v.2.2)⟩

/-- The dictionary returned by `bin_wise_jaccard` for one fold. -/
structure JaccFoldResult where
  meanAllTargets : ℚ
  meanAllBins : List ℚ
  allBins : List (List ℚ)
  meanAllTargetsRecall : ℚ
  meanAllBinsRecall : List ℚ
  allBinsRecall : List (List ℚ)
  meanAllTargetsPrecision : ℚ
  meanAllBinsPrecision : List ℚ
  allBinsPrecision : List (List ℚ)
  concatTargetsSep : List (List (List ℚ))
  deriving Repr, DecidableEq

/-- `bin_wise_jaccard`: Jaccard/recall/precision between predicted bin groups
and ground-truth quantile groups for every target of one fold. -/
def bin_wise_jaccard (rows : List SRow) (numBins numBinsQuantiles : ℕ)
    (targets : List ℤ) (combineMiddleBins : Bool) : Except String JaccFoldResult :=
  match exMapM (fun t =>
      jaccardTarget (targetErrsMap rows t) (targetBinsMap rows t)
        numBins numBinsQuantiles combineMiddleBins) targets with
  | Except.error e => Except.error e
  | Except.ok perTarget =>
    let allQs := (List.range numBins).map (fun b =>
      perTarget.map (fun r => r.jaccs.getD b 0))
    let allQsRecall := (List.range numBins).map (fun b =>
      perTarget.map (fun r => r.recalls.getD b 0))
    let allQsPrecision := (List.range numBins).map (fun b =>
      perTarget.map (fun r => r.precisions.getD b 0))
    Except.ok
      { meanAllTargets := listMean (perTarget.map (fun r => listMean r.jaccs))
        meanAllBins := allQs.map listMean
        allBins := allQs
        meanAllTargetsRecall := listMean (perTarget.map (fun r => listMean r.recalls))
        meanAllBinsRecall := allQsRecall.map listMean
        allBinsRecall := allQsRecall
        meanAllTargetsPrecision := listMean (perTarget.map (fun r => listMean r.precisions))
        meanAllBinsPrecision := allQsPrecision.map listMean
        allBinsPrecision := allQsPrecision
        concatTargetsSep := perTarget.map (fun r =>
          (List.range numBins).map (fun b => [r.jaccs.getD b 0])) }

/-! ### Fold data view and shared accumulator updates -/

/-- A model's sample table, viewed per uncertainty type: each type name maps to
the rows carrying that type's error and bin columns.  Selecting an absent type
is a KeyError. -/
abbrev ModelData := List (String × List SRow)

/-- `FoldDataProcessor.extract_fold_data`: the rows of one testing fold for one
uncertainty type. -/
def extractFoldData (md : ModelData) (utype : String) (fold : ℕ) :
    Except String (List SRow) :=
  match md.find? (fun p => p.1 == utype) with
  | none => Except.error "KeyError"
  | some p => Except.ok (p.2.filter (fun r => r.fold == fold))

/-- `for idx_bin in range(len(r)): acc[idx_bin].append(r[idx_bin])`. -/
def appendEach {α : Type} (acc : List (List α)) (r : List α) : List (List α) :=
  acc.mapIdx (fun i a => match r.get? i with | some v => a ++ [v] | none => a)

/-- `for idx_bin in range(len(r)): acc[idx_bin] = acc[idx_bin] + r[idx_bin]`. -/
def concatEach {α : Type} (acc : List (List α)) (r : List (List α)) : List (List α) :=
  acc.mapIdx (fun i a => a ++ r.getD i [])

/-- The nested per-target, per-bin `acc[t][q] = acc[t][q] + r[t][q]` update. -/
def concatNested {α : Type} (acc : List (List (List α)))
    (r : List (List (List α))) : List (List (List α)) :=
  acc.mapIdx (fun t accT => concatEach accT (r.getD t []))

/-- Result dictionaries keyed by `"{model} {uncertainty_type}"`. -/
abbrev ResDict (α : Type) := List (String × α)

/-- Python dict assignment `d[k] = v`: replace an existing key's value, else
append the new key. -/
def updAssoc {α : Type} (d : ResDict α) (k : String) (v : α) : ResDict α :=
  if d.any (fun p => p.1 == k) then
    d.map (fun p => if p.1 == k then (k, v) else p)
  else d ++ [(k, v)]

/-- Dictionary lookup on a result dictionary. -/
def lookupRes {α : Type} (d : ResDict α) (k : String) : Option α :=
  (d.find? (fun p => p.1 == k)).map Prod.snd

/-! ### The bound evaluation handler (`evaluate_bounds`) -/

/-- One row of a model's error-bound table: the testing fold together with,
per uncertainty type, the per-target threshold lists.  Modelled from the spec:
`strip_for_bound` (from `kale.prepdata.string_transform`, not under src/)
parses each bound cell into its numeric per-target threshold lists, so the
bound table is modelled as already parsed and the strip step is the identity. -/
abbrev BoundRow := ℕ × List (String × List (List ℚ))

/-- The `estimated_bounds` dictionary: `"{model} Error Bounds"` maps to that
model's bound table. -/
abbrev EstBounds := List (String × List BoundRow)

/-- `estimated_bounds[f"{model} Error Bounds"]` filtered to one fold and
projected to the `f"{type} Uncertainty bounds"` column, the rows' per-target
lists concatenated.  A missing table or column is a KeyError. -/
def foldBoundsOf (eb : EstBounds) (model utype : String) (fold : ℕ) :
    Except String (List (List ℚ)) :=
  match eb.find? (fun p => p.1 == model ++ " Error Bounds") with
  | none => Except.error "KeyError"
  | some p =>
    match exMapM (fun row =>
        match row.2.find? (fun c => c.1 == utype) with
        | none => Except.error "KeyError"
        | some c => Except.ok c.2)
      (p.2.filter (fun row => row.1 == fold)) with
    | Except.error e => Except.error e
    | Except.ok cells => Except.ok cells.flatten

/-- Python falsiness of `kwargs.get('estimated_bounds')`: absent or empty. -/
def pyFalsyBounds (eb : Option EstBounds) : Bool :=
  match eb with
  | none => true
  | some l => l.isEmpty

/-- Python falsiness of `kwargs.get('model')`: absent or the empty string. -/
def pyFalsyStr (s : Option String) : Bool :=
  match s with
  | none => true
  | some s => s.isEmpty

/-- Observable stages of one fold iteration: the fold's data was extracted;
the fold was handed to the scorer. -/
inductive FoldEv where
  | extract (fold : ℕ)
  | score (fold : ℕ)
  deriving Repr, DecidableEq

/-- One iteration of the bound evaluator's fold loop: extract the fold's data,
then `_process_single_fold` (required-argument check, bound table lookup,
scorer call).  The trace records which stages actually ran. -/
def boundStep (md : ModelData) (utype : String) (eb : Option EstBounds)
    (model : Option String) (targets : List ℤ) (numBins fold : ℕ) :
    List FoldEv × Except String BoundFoldResult :=
  match extractFoldData md utype fold with
  | Except.error e => ([], Except.error e)
  | Except.ok rows =>
    if pyFalsyBounds eb || pyFalsyStr model then
      ([FoldEv.extract fold],
       Except.error "ValueError: estimated_bounds and model are required for BoundEvaluationHandler")
    else
      match foldBoundsOf (eb.getD []) (model.getD "") utype fold with
      | Except.error e => ([FoldEv.extract fold], Except.error e)
      | Except.ok fb =>
        match bin_wise_bound_eval fb rows targets numBins with
        | Except.error e => ([FoldEv.extract fold, FoldEv.score fold], Except.error e)
        | Except.ok r => ([FoldEv.extract fold, FoldEv.score fold], Except.ok r)

/-- The bound evaluator's per-(model, type) accumulator. -/
structure BoundAcc where
  meanTargets : List ℚ
  meanBins : List (List ℚ)
  binsNoTargetSep : List (List ℚ)
  concatSepFoldwise : List (List (List ℚ))
  concatSepAll : List (List (List ℚ))
  deriving Repr, DecidableEq

/-- `_initialize_fold_accumulator` of the bound evaluator. -/
def boundInitAcc (numBins numTargets : ℕ) : BoundAcc :=
  ⟨[], List.replicate numBins [], List.replicate numBins [],
   List.replicate numTargets (List.replicate numBins []),
   List.replicate numTargets (List.replicate numBins [])⟩

/-- `_accumulate_fold_result` of the bound evaluator. -/
def boundAccumulate (acc : BoundAcc) (r : BoundFoldResult) : BoundAcc :=
  { meanTargets := acc.meanTargets ++ [r.meanAllTargets]
    meanBins := appendEach acc.meanBins r.meanAllBins
    binsNoTargetSep := concatEach acc.binsNoTargetSep r.meanAll
    concatSepFoldwise := concatNested acc.concatSepFoldwise r.concatTargetsSep
    concatSepAll := concatNested acc.concatSepAll r.concatTargetsSep }

/-- The bound evaluator's fold loop, accumulating the per-fold traces. -/
def boundFoldLoop (md : ModelData) (utype : String) (eb : Option EstBounds)
    (model : Option String) (targets : List ℤ) (numBins : ℕ) :
    List ℕ → BoundAcc → List FoldEv × Except String BoundAcc
  | [], acc => ([], Except.ok acc)
  | f :: fs, acc =>
    match boundStep md utype eb model targets numBins f with
    | (tr, Except.error e) => (tr, Except.error e)
    | (tr, Except.ok r) =>
      match boundFoldLoop md utype eb model targets numBins fs (boundAccumulate acc r) with
      | (tr2, res) => (tr ++ tr2, res)

/-- `_process_folds` of the bound evaluator: folds `0..num_folds-1` in order. -/
def boundProcessFolds (md : ModelData) (utype : String) (eb : Option EstBounds)
    (model : Option String) (targets : List ℤ) (numBins numFolds : ℕ) :
    List FoldEv × Except String BoundAcc :=
  boundFoldLoop md utype eb model targets numBins (List.range numFolds)
    (boundInitAcc numBins targets.length)

/-- The bound evaluator's finalized result structure. -/
structure BoundResults where
  allBoundPercents : ResDict (List (List ℚ))
  allBoundPercentsNoTargetSep : ResDict (List (List ℚ))
  concatSepFoldwise : List (ResDict (List (List ℚ)))
  concatSepAll : List (ResDict (List (List ℚ)))
  deriving Repr, DecidableEq

/-- `_initialize_results` of the bound evaluator. -/
def boundInitResults (numTargets : ℕ) : BoundResults :=
  ⟨[], [], List.replicate numTargets [], List.replicate numTargets []⟩

/-- `_aggregate_results` of the bound evaluator: the two bin-mean structures
are reversed to worst-to-best order, while the two per-target concatenated
structures are assigned without reversal. -/
def boundAggregate (res : BoundResults) (model utype : String) (acc : BoundAcc) :
    BoundResults :=
  let key := model ++ " " ++ utype
  { allBoundPercents := updAssoc res.allBoundPercents key acc.meanBins.reverse
    allBoundPercentsNoTargetSep :=
      updAssoc res.allBoundPercentsNoTargetSep key acc.binsNoTargetSep.reverse
    concatSepFoldwise := res.concatSepFoldwise.mapIdx (fun t d =>
      updAssoc d key (acc.concatSepFoldwise.getD t []))
    concatSepAll := res.concatSepAll.mapIdx (fun t d =>
      updAssoc d key (acc.concatSepAll.getD t [])) }

/-- The bound evaluator's loop over uncertainty-type pairs for one model. -/
def boundPairLoop (md : ModelData) (model : String) (eb : Option EstBounds)
    (targets : List ℤ) (numBins numFolds : ℕ) :
    List (List String) → BoundResults → Except String BoundResults
  | [], res => Except.ok res
  | pair :: ps, res =>
    match pyIdx pair 0 with
    | Except.error e => Except.error e
    | Except.ok utype =>
      match (boundProcessFolds md utype eb (some model) targets numBins numFolds).2 with
      | Except.error e => Except.error e
      | Except.ok acc =>
        boundPairLoop md model eb targets numBins numFolds ps
          (boundAggregate res model utype acc)

/-- The bound evaluator's loop over models. -/
def boundModelLoop (eb : Option EstBounds) (targets : List ℤ)
    (numBins numFolds : ℕ) (pairs : List (List String)) :
    List (String × ModelData) → BoundResults → Except String BoundResults
  | [], res => Except.ok res
  | (model, md) :: ms, res =>
    match boundPairLoop md model eb targets numBins numFolds pairs res with
    | Except.error e => Except.error e
    | Except.ok res2 => boundModelLoop eb targets numBins numFolds pairs ms res2

/-- `evaluate_bounds`: builds the handler (3 bins when `combine_middle_bins`)
and runs the model × uncertainty-type × fold evaluation. -/
def evaluate_bounds (eb : Option EstBounds)
    (binPredictions : List (String × ModelData)) (pairs : List (List String))
    (numBins : ℕ) (targets : List ℤ) (numFolds : ℕ) (combineMiddleBins : Bool) :
    Except String BoundResults :=
  let nb := if combineMiddleBins then 3 else numBins
  boundModelLoop eb targets nb numFolds pairs binPredictions
    (boundInitResults targets.length)

/-! ### The mean-error evaluation handler (`get_mean_errors`) -/

/-- The error evaluator's per-(model, type) accumulator. -/
structure ErrorAcc where
  meanTargets : List ℚ
  meanBins : List (List (Option ℚ))
  allBins : List (List ℚ)
  concatSepFoldwise : List (List (List (List ℚ)))
  concatSepAll : List (List (List ℚ))
  concatNoSep : List (List ℚ)
  deriving Repr, DecidableEq

/-- `_initialize_fold_accumulator` of the error evaluator. -/
def errorInitAcc (numBins numTargets : ℕ) : ErrorAcc :=
  ⟨[], List.replicate numBins [], List.replicate numBins [],
   List.replicate numTargets (List.replicate numBins []),
   List.replicate numTargets (List.replicate numBins []),
   List.replicate numBins []⟩

/-- The twice-flattened cross-target concatenation
`[x for sublist in [x[idx_bin] for x in r] for x in sublist]`, flattened again. -/
def noSepFlatten (r : List (List (List (List ℚ)))) (b : ℕ) : List ℚ :=
  ((r.map (fun x => x.getD b [])).flatten).flatten

/-- The error evaluator's per-target `sep_all` update: append the raw error
list `r[t][q][0]` when the fold recorded one, else keep the accumulator. -/
def errSepAllUpd (acc : List (List (List ℚ)))
    (r : List (List (List (List ℚ)))) : List (List (List ℚ)) :=
  acc.mapIdx (fun t accT => accT.mapIdx (fun q aq =>
    let rv := (r.getD t []).getD q []
    if rv = [] then aq else aq ++ rv.getD 0 []))

/-- `_accumulate_fold_result` of the error evaluator. -/
def errorAccumulate (acc : ErrorAcc) (r : ErrorFoldResult) : ErrorAcc :=
  { meanTargets := acc.meanTargets ++ [r.meanAllTargets]
    meanBins := appendEach acc.meanBins r.meanAllBins
    allBins := concatEach acc.allBins r.allBins
    concatSepFoldwise := concatNested acc.concatSepFoldwise r.concatTargetsSep
    concatSepAll := errSepAllUpd acc.concatSepAll r.concatTargetsSep
    concatNoSep := acc.concatNoSep.mapIdx (fun b a =>
      a ++ noSepFlatten r.concatTargetsSep b) }

/-- The error evaluator's fold loop. -/
def errorFoldLoop (md : ModelData) (utype : String) (targets : List ℤ)
    (numBins : ℕ) (errorScalingFactor : ℚ) :
    List ℕ → ErrorAcc → Except String ErrorAcc
  | [], acc => Except.ok acc
  | f :: fs, acc =>
    match extractFoldData md utype f with
    | Except.error e => Except.error e
    | Except.ok rows =>
      match bin_wise_errors rows numBins targets errorScalingFactor with
      | Except.error e => Except.error e
      | Except.ok r =>
        errorFoldLoop md utype targets numBins errorScalingFactor fs
          (errorAccumulate acc r)

/-- `_process_folds` of the error evaluator. -/
def errorProcessFolds (md : ModelData) (utype : String) (targets : List ℤ)
    (numBins numFolds : ℕ) (errorScalingFactor : ℚ) : Except String ErrorAcc :=
  errorFoldLoop md utype targets numBins errorScalingFactor
    (List.range numFolds) (errorInitAcc numBins targets.length)

/-- The error evaluator's finalized result structure. -/
structure ErrorResults where
  allMeanErrorBins : ResDict (List (List (Option ℚ)))
  allMeanErrorBinsTargetsSep : ResDict (List (List ℚ))
  concatNoSep : ResDict (List (List ℚ))
  concatSepFoldwise : List (ResDict (List (List (List ℚ))))
  concatSepAll : List (ResDict (List (List ℚ)))
  deriving Repr, DecidableEq

/-- `_initialize_results` of the error evaluator. -/
def errorInitResults (numTargets : ℕ) : ErrorResults :=
  ⟨[], [], [], List.replicate numTargets [], List.replicate numTargets []⟩

/-- `_aggregate_results` of the error evaluator: every per-bin structure,
including the per-target ones, is reversed to worst-to-best order. -/
def errorAggregate (res : ErrorResults) (model utype : String) (acc : ErrorAcc) :
    ErrorResults :=
  let key := model ++ " " ++ utype
  { allMeanErrorBins := updAssoc res.allMeanErrorBins key acc.meanBins.reverse
    allMeanErrorBinsTargetsSep :=
      updAssoc res.allMeanErrorBinsTargetsSep key acc.allBins.reverse
    concatNoSep := updAssoc res.concatNoSep key acc.concatNoSep.reverse
    concatSepFoldwise := res.concatSepFoldwise.mapIdx (fun t d =>
      updAssoc d key ((acc.concatSepFoldwise.getD t []).reverse))
    concatSepAll := res.concatSepAll.mapIdx (fun t d =>
      updAssoc d key ((acc.concatSepAll.getD t []).reverse)) }

/-- The error evaluator's loop over uncertainty-type pairs for one model. -/
def errorPairLoop (md : ModelData) (model : String) (targets : List ℤ)
    (numBins numFolds : ℕ) (errorScalingFactor : ℚ) :
    List (List String) → ErrorResults → Except String ErrorResults
  | [], res => Except.ok res
  | pair :: ps, res =>
    match pyIdx pair 0 with
    | Except.error e => Except.error e
    | Except.ok utype =>
      match errorProcessFolds md utype targets numBins numFolds errorScalingFactor with
      | Except.error e => Except.error e
      | Except.ok acc =>
        errorPairLoop md model targets numBins numFolds errorScalingFactor ps
          (errorAggregate res model utype acc)

/-- The error evaluator's loop over models. -/
def errorModelLoop (targets : List ℤ) (numBins numFolds : ℕ)
    (errorScalingFactor : ℚ) (pairs : List (List String)) :
    List (String × ModelData) → ErrorResults → Except String ErrorResults
  | [], res => Except.ok res
  | (model, md) :: ms, res =>
    match errorPairLoop md model targets numBins numFolds errorScalingFactor pairs res with
    | Except.error e => Except.error e
    | Except.ok res2 =>
      errorModelLoop targets numBins numFolds errorScalingFactor pairs ms res2

/-- `get_mean_errors`: builds the handler (3 bins when `combine_middle_bins`)
and runs the model × uncertainty-type × fold evaluation. -/
def get_mean_errors (binPredictions : List (String × ModelData))
    (pairs : List (List String)) (numBins : ℕ) (targets : List ℤ)
    (numFolds : ℕ) (errorScalingFactor : ℚ) (combineMiddleBins : Bool) :
    Except String ErrorResults :=
  let nb := if combineMiddleBins then 3 else numBins
  errorModelLoop targets nb numFolds errorScalingFactor pairs binPredictions
    (errorInitResults targets.length)

/-! ### The Jaccard evaluation handler (`evaluate_jaccard`) -/

/-- The Jaccard evaluator's per-(model, type) accumulator. -/
structure JaccAcc where
  meanTargets : List ℚ
  meanBins : List (List ℚ)
  allBins : List (List ℚ)
  meanTargetsRecall : List ℚ
  meanBinsRecall : List (List ℚ)
  allBinsRecall : List (List ℚ)
  meanTargetsPrecision : List ℚ
  meanBinsPrecision : List (List ℚ)
  allBinsPrecision : List (List ℚ)
  concatSepFoldwise : List (List (List ℚ))
  concatSepAll : List (List (List ℚ))
  deriving Repr, DecidableEq

/-- `_initialize_fold_accumulator` of the Jaccard evaluator. -/
def jaccInitAcc (numBins numTargets : ℕ) : JaccAcc :=
  ⟨[], List.replicate numBins [], List.replicate numBins [],
   [], List.replicate numBins [], List.replicate numBins [],
   [], List.replicate numBins [], List.replicate numBins [],
   List.replicate numTargets (List.replicate numBins []),
   List.replicate numTargets (List.replicate numBins [])⟩

/-- `_accumulate_fold_result` of the Jaccard evaluator. -/
def jaccAccumulate (acc : JaccAcc) (r : JaccFoldResult) : JaccAcc :=
  { meanTargets := acc.meanTargets ++ [r.meanAllTargets]
    meanBins := appendEach acc.meanBins r.meanAllBins
    allBins := concatEach acc.allBins r.allBins
    meanTargetsRecall := acc.meanTargetsRecall ++ [r.meanAllTargetsRecall]
    meanBinsRecall := appendEach acc.meanBinsRecall r.meanAllBinsRecall
    allBinsRecall := concatEach acc.allBinsRecall r.allBinsRecall
    meanTargetsPrecision := acc.meanTargetsPrecision ++ [r.meanAllTargetsPrecision]
    meanBinsPrecision := appendEach acc.meanBinsPrecision r.meanAllBinsPrecision
    allBinsPrecision := concatEach acc.allBinsPrecision r.allBinsPrecision
    concatSepFoldwise := concatNested acc.concatSepFoldwise r.concatTargetsSep
    concatSepAll := concatNested acc.concatSepAll r.concatTargetsSep }

/-- `_process_single_fold` of the Jaccard evaluator: with
`combine_middle_bins` the scorer runs on 3 bins while the quantile thresholds
still come from the original bin count. -/
def jaccProcessSingleFold (rows : List SRow) (targets : List ℤ)
    (numBins originalNumBins : ℕ) (combineMiddleBins : Bool) :
    Except String JaccFoldResult :=
  if combineMiddleBins then bin_wise_jaccard rows 3 originalNumBins targets true
  else bin_wise_jaccard rows numBins numBins targets false

/-- The Jaccard evaluator's fold loop. -/
def jaccFoldLoop (md : ModelData) (utype : String) (targets : List ℤ)
    (numBins originalNumBins : ℕ) (combineMiddleBins : Bool) :
    List ℕ → JaccAcc → Except String JaccAcc
  | [], acc => Except.ok acc
  | f :: fs, acc =>
    match extractFoldData md utype f with
    | Except.error e => Except.error e
    | Except.ok rows =>
      match jaccProcessSingleFold rows targets numBins originalNumBins
          combineMiddleBins with
      | Except.error e => Except.error e
      | Except.ok r =>
        jaccFoldLoop md utype targets numBins originalNumBins combineMiddleBins fs
          (jaccAccumulate acc r)

/-- `_process_folds` of the Jaccard evaluator. -/
def jaccProcessFolds (md : ModelData) (utype : String) (targets : List ℤ)
    (numBins originalNumBins numFolds : ℕ) (combineMiddleBins : Bool) :
    Except String JaccAcc :=
  jaccFoldLoop md utype targets numBins originalNumBins combineMiddleBins
    (List.range numFolds) (jaccInitAcc numBins targets.length)

/-- The Jaccard evaluator's finalized result structure. -/
structure JaccResults where
  allJaccData : ResDict (List (List ℚ))
  allJaccBinsTargetsSep : ResDict (List (List ℚ))
  allRecallData : ResDict (List (List ℚ))
  allRecallBinsTargetsSep : ResDict (List (List ℚ))
  allPrecisionData : ResDict (List (List ℚ))
  allPrecisionBinsTargetsSep : ResDict (List (List ℚ))
  concatSepFoldwise : List (ResDict (List (List ℚ)))
  concatSepAll : List (ResDict (List (List ℚ)))
  deriving Repr, DecidableEq

/-- `_initialize_results` of the Jaccard evaluator. -/
def jaccInitResults (numTargets : ℕ) : JaccResults :=
  ⟨[], [], [], [], [], [],
   List.replicate numTargets [], List.replicate numTargets []⟩

/-- `_aggregate_results` of the Jaccard evaluator (no reversal). -/
def jaccAggregate (res : JaccResults) (model utype : String) (acc : JaccAcc) :
    JaccResults :=
  let key := model ++ " " ++ utype
  { allJaccData := updAssoc res.allJaccData key acc.meanBins
    allJaccBinsTargetsSep := updAssoc res.allJaccBinsTargetsSep key acc.allBins
    allRecallData := updAssoc res.allRecallData key acc.meanBinsRecall
    allRecallBinsTargetsSep :=
      updAssoc res.allRecallBinsTargetsSep key acc.allBinsRecall
    allPrecisionData := updAssoc res.allPrecisionData key acc.meanBinsPrecision
    allPrecisionBinsTargetsSep :=
      updAssoc res.allPrecisionBinsTargetsSep key acc.allBinsPrecision
    concatSepFoldwise := res.concatSepFoldwise.mapIdx (fun t d =>
      updAssoc d key (acc.concatSepFoldwise.getD t []))
    concatSepAll := res.concatSepAll.mapIdx (fun t d =>
      updAssoc d key (acc.concatSepAll.getD t [])) }

/-- The Jaccard evaluator's loop over uncertainty-type pairs for one model. -/
def jaccPairLoop (md : ModelData) (model : String) (targets : List ℤ)
    (numBins originalNumBins numFolds : ℕ) (combineMiddleBins : Bool) :
    List (List String) → JaccResults → Except String JaccResults
  | [], res => Except.ok res
  | pair :: ps, res =>
    match pyIdx pair 0 with
    | Except.error e => Except.error e
    | Except.ok utype =>
      match jaccProcessFolds md utype targets numBins originalNumBins numFolds
          combineMiddleBins with
      | Except.error e => Except.error e
      | Except.ok acc =>
        jaccPairLoop md model targets numBins originalNumBins numFolds
          combineMiddleBins ps (jaccAggregate res model utype acc)

/-- The Jaccard evaluator's loop over models. -/
def jaccModelLoop (targets : List ℤ) (numBins originalNumBins numFolds : ℕ)
    (combineMiddleBins : Bool) (pairs : List (List String)) :
    List (String × ModelData) → JaccResults → Except String JaccResults
  | [], res => Except.ok res
  | (model, md) :: ms, res =>
    match jaccPairLoop md model targets numBins originalNumBins numFolds
        combineMiddleBins pairs res with
    | Except.error e => Except.error e
    | Except.ok res2 =>
      jaccModelLoop targets numBins originalNumBins numFolds combineMiddleBins
        pairs ms res2

/-- `evaluate_jaccard`: builds the handler (3 bins when `combine_middle_bins`,
the original bin count kept for the quantile thresholds) and runs the
model × uncertainty-type × fold evaluation. -/
def evaluate_jaccard (binPredictions : List (String × ModelData))
    (pairs : List (List String)) (numBins : ℕ) (targets : List ℤ)
    (numFolds : ℕ) (combineMiddleBins : Bool) : Except String JaccResults :=
  let nb := if combineMiddleBins then 3 else numBins
  jaccModelLoop targets nb numBins numFolds combineMiddleBins pairs
    binPredictions (jaccInitResults targets.length)

/-! ### `quantile_binning_and_est_errors` -/

/-- `quantile_binning_and_est_errors` from
`kale/interpret/uncertainty_quantiles.py`.  The isotonic regressor is an
external collaborator (spec: invoked as a black box), passed in as the
prediction function `irPredict`.  The validity check admits the spelling
"error-wise" while the not-implemented branch tests the spelling
"error_wise", exactly as in the source. -/
def quantile_binning_and_est_errors (errors uncertainties : List ℚ)
    (numBins : ℕ) (qtype : String) (acceptableThresh : ℚ)
    (combineMiddleBins : Bool) (irPredict : ℚ → ℚ) :
    Except String (List (List ℚ) × List ℚ) :=
  if errors.length ≠ uncertainties.length then
    Except.error "ValueError: Length of errors and uncertainties must be the same."
  else if qtype ≠ "quantile" ∧ qtype ≠ "error-wise" then
    Except.error "ValueError: results: type must be one of valid_types."
  else
    let quantileStep : List (List ℚ) × List ℚ :=
      if qtype = "quantile" then
        let ubs := (quantilePoints numBins).map (fun q => [npQuantile uncertainties q])
        (ubs, ubs.map (fun ub => irPredict (ub.getD 0 0)))
      else ([], [])
    if qtype = "error_wise" then
      let estimated := (List.range (numBins - 1)).map
        (fun x : ℕ => [acceptableThresh * (x : ℚ)])
      let _uncertBoundaries := estimated.map (fun e => irPredict (e.getD 0 0))
      Except.error "NotImplementedError: error_wise Quantile Binning not implemented yet"
    else
      if combineMiddleBins then
        match quantileStep.2.head?, quantileStep.2.getLast?,
            quantileStep.1.head?, quantileStep.1.getLast? with
        | some e0, some el, some u0, some ul => Except.ok ([u0, ul], [e0, el])
        | _, _, _, _ => Except.error "IndexError"
      else Except.ok quantileStep

/-! ### Definitions used to state the verified properties -/

/-- The error value a dictionary associates to an id (the first matching
entry), defaulting to 0 for an absent id. -/
def errOf (d : List (ℕ × ℚ)) (i : ℕ) : ℚ :=
  ((d.find? (fun p => p.1 == i)).map Prod.snd).getD 0

/-- The two outer thresholds kept by the `combine_middle_bins` collapse:
the first and the last of the `Q - 1` ground-truth quantile thresholds. -/
def combinedThresholdPair (entries : List (ℕ × ℚ)) (Q : ℕ) : List ℚ :=
  [(gtThresholds entries Q).getD 0 0, (gtThresholds entries Q).getD (Q - 2) 0]

/-- Every value of a result dictionary has exactly three entries along its
bin axis. -/
def allValuesLen3 {α : Type} (d : ResDict (List α)) : Prop :=
  ∀ p ∈ d, p.2.length = 3

/-- Every per-target result dictionary has only length-3 bin axes. -/
def allDictsLen3 {α : Type} (l : List (ResDict (List α))) : Prop :=
  ∀ d ∈ l, allValuesLen3 d

/-- All bin-indexed axes of a finalized bound result have length 3. -/
def boundBinAxes3 (res : BoundResults) : Prop :=
  allValuesLen3 res.allBoundPercents ∧
  allValuesLen3 res.allBoundPercentsNoTargetSep ∧
  allDictsLen3 res.concatSepFoldwise ∧
  allDictsLen3 res.concatSepAll

/-- All bin-indexed axes of a finalized mean-error result have length 3. -/
def errorBinAxes3 (res : ErrorResults) : Prop :=
  allValuesLen3 res.allMeanErrorBins ∧
  allValuesLen3 res.allMeanErrorBinsTargetsSep ∧
  allValuesLen3 res.concatNoSep ∧
  allDictsLen3 res.concatSepFoldwise ∧
  allDictsLen3 res.concatSepAll

/-- All bin-indexed axes of a finalized Jaccard result have length 3. -/
def jaccBinAxes3 (res : JaccResults) : Prop :=
  allValuesLen3 res.allJaccData ∧
  allValuesLen3 res.allJaccBinsTargetsSep ∧
  allValuesLen3 res.allRecallData ∧
  allValuesLen3 res.allRecallBinsTargetsSep ∧
  allValuesLen3 res.allPrecisionData ∧
  allValuesLen3 res.allPrecisionBinsTargetsSep ∧
  allDictsLen3 res.concatSepFoldwise ∧
  allDictsLen3 res.concatSepAll

/-- Shape invariant of the bound evaluator's accumulator: both bin-mean axes
hold `nb` entries and the per-target concatenated axes hold `nb` entries for
each of the `nt` targets. -/
def boundAccInv (nb nt : ℕ) (acc : BoundAcc) : Prop :=
  acc.meanBins.length = nb ∧ acc.binsNoTargetSep.length = nb ∧
  acc.concatSepFoldwise.length = nt ∧
  (∀ x ∈ acc.concatSepFoldwise, x.length = nb) ∧
  acc.concatSepAll.length = nt ∧
  (∀ x ∈ acc.concatSepAll, x.length = nb)

/-- Shape invariant of the error evaluator's accumulator. -/
def errorAccInv (nb nt : ℕ) (acc : ErrorAcc) : Prop :=
  acc.meanBins.length = nb ∧ acc.allBins.length = nb ∧
  acc.concatSepFoldwise.length = nt ∧
  (∀ x ∈ acc.concatSepFoldwise, x.length = nb) ∧
  acc.concatSepAll.length = nt ∧
  (∀ x ∈ acc.concatSepAll, x.length = nb) ∧
  acc.concatNoSep.length = nb

/-- Shape invariant of the Jaccard evaluator's accumulator. -/
def jaccAccInv (nb nt : ℕ) (acc : JaccAcc) : Prop :=
  acc.meanBins.length = nb ∧ acc.allBins.length = nb ∧
  acc.meanBinsRecall.length = nb ∧ acc.allBinsRecall.length = nb ∧
  acc.meanBinsPrecision.length = nb ∧ acc.allBinsPrecision.length = nb ∧
  acc.concatSepFoldwise.length = nt ∧
  (∀ x ∈ acc.concatSepFoldwise, x.length = nb) ∧
  acc.concatSepAll.length = nt ∧
  (∀ x ∈ acc.concatSepAll, x.length = nb)

/-- Shape invariant of the bound evaluator's result structure: every
bin-indexed axis has length 3 and the per-target dictionary lists keep one
entry per target. -/
def boundResInv (nt : ℕ) (res : BoundResults) : Prop :=
  allValuesLen3 res.allBoundPercents ∧
  allValuesLen3 res.allBoundPercentsNoTargetSep ∧
  res.concatSepFoldwise.length = nt ∧ allDictsLen3 res.concatSepFoldwise ∧
  res.concatSepAll.length = nt ∧ allDictsLen3 res.concatSepAll

/-- Shape invariant of the error evaluator's result structure. -/
def errorResInv (nt : ℕ) (res : ErrorResults) : Prop :=
  allValuesLen3 res.allMeanErrorBins ∧
  allValuesLen3 res.allMeanErrorBinsTargetsSep ∧
  allValuesLen3 res.concatNoSep ∧
  res.concatSepFoldwise.length = nt ∧ allDictsLen3 res.concatSepFoldwise ∧
  res.concatSepAll.length = nt ∧ allDictsLen3 res.concatSepAll

/-- Shape invariant of the Jaccard evaluator's result structure. -/
def jaccResInv (nt : ℕ) (res : JaccResults) : Prop :=
  allValuesLen3 res.allJaccData ∧
  allValuesLen3 res.allJaccBinsTargetsSep ∧
  allValuesLen3 res.allRecallData ∧
  allValuesLen3 res.allRecallBinsTargetsSep ∧
  allValuesLen3 res.allPrecisionData ∧
  allValuesLen3 res.allPrecisionBinsTargetsSep ∧
  res.concatSepFoldwise.length = nt ∧ allDictsLen3 res.concatSepFoldwise ∧
  res.concatSepAll.length = nt ∧ allDictsLen3 res.concatSepAll

/-! ## Helper lemmas -/

theorem exMapM_ok_length {α β : Type} (f : α → Except String β) :
    ∀ (l : List α) (ys : List β), exMapM f l = Except.ok ys → ys.length = l.length := by
  intro l
  induction l with
  | nil =>
    intro ys h
    simp only [exMapM] at h
    cases h
    rfl
  | cons x xs ih =>
    intro ys h
    simp only [exMapM] at h
    cases hfx : f x with
    | error e => rw [hfx] at h; cases h
    | ok y =>
      rw [hfx] at h
      cases hrec : exMapM f xs with
      | error e => rw [hrec] at h; cases h
      | ok zs =>
        rw [hrec] at h
        cases h
        simp [ih zs hrec]

theorem exMapM_ok_get? {α β : Type} (f : α → Except String β) :
    ∀ (l : List α) (ys : List β), exMapM f l = Except.ok ys →
      ∀ i, (l.get? i).map f = (ys.get? i).map Except.ok := by
  intro l
  induction l with
  | nil =>
    intro ys h i
    simp only [exMapM] at h
    cases h
    rfl
  | cons x xs ih =>
    intro ys h i
    simp only [exMapM] at h
    cases hfx : f x with
    | error e => rw [hfx] at h; cases h
    | ok y =>
      rw [hfx] at h
      cases hrec : exMapM f xs with
      | error e => rw [hrec] at h; cases h
      | ok zs =>
        rw [hrec] at h
        cases h
        cases i with
        | zero => simp [hfx]
        | succ n => simpa using ih zs hrec n

theorem exMapM_error_msg {α β : Type} (f : α → Except String β) (E : String)
    (huniq : ∀ y e, f y = Except.error e → e = E) :
    ∀ (l : List α) (e : String), exMapM f l = Except.error e → e = E := by
  intro l
  induction l with
  | nil => intro e h; simp only [exMapM] at h; cases h
  | cons x xs ih =>
    intro e h
    simp only [exMapM] at h
    cases hfx : f x with
    | error e2 =>
      rw [hfx] at h
      cases h
      exact huniq x _ hfx
    | ok y =>
      rw [hfx] at h
      cases hrec : exMapM f xs with
      | error e2 =>
        rw [hrec] at h
        cases h
        exact ih _ hrec
      | ok zs => rw [hrec] at h; cases h

theorem exMapM_error_of_mem {α β : Type} (f : α → Except String β) (E : String)
    (huniq : ∀ y e, f y = Except.error e → e = E) :
    ∀ (l : List α) (x : α), x ∈ l → (∃ e, f x = Except.error e) →
      exMapM f l = Except.error E := by
  intro l
  induction l with
  | nil => intro x hx; cases hx
  | cons z zs ih =>
    intro x hx hfx
    simp only [exMapM]
    cases hfz : f z with
    | error e => rw [huniq z e hfz]
    | ok y =>
      rcases List.mem_cons.1 hx with rfl | hx2
      · rcases hfx with ⟨e, hfx⟩
        rw [hfx] at hfz
        cases hfz
      · rw [ih x hx2 hfx]

theorem exMapM_map_rel {α β γ : Type} (f1 : α → Except String β)
    (f2 : α → Except String γ) (g : β → γ)
    (hfg : ∀ x, f2 x = (f1 x).map g) :
    ∀ l, exMapM f2 l = (exMapM f1 l).map (List.map g) := by
  intro l
  induction l with
  | nil => simp [exMapM, Except.map]
  | cons x xs ih =>
    simp only [exMapM, ih, hfg x]
    cases hfx : f1 x with
    | error e => simp [Except.map]
    | ok y =>
      cases hrec : exMapM f1 xs with
      | error e => simp [Except.map]
      | ok zs => simp [Except.map]

theorem head?_filter_eq_find? {α : Type} (p : α → Bool) :
    ∀ (l : List α), (l.filter p).head? = l.find? p := by
  intro l
  induction l with
  | nil => rfl
  | cons x xs ih =>
    by_cases hx : p x
    · simp [List.filter_cons, hx, List.find?_cons, ih]
    · have hx2 : p x = false := by simpa using hx
      simp only [List.filter_cons, List.find?_cons, hx2]
      rw [if_neg (by simp)]
      exact ih

theorem scanLookup_error_msg (d : List (ℕ × ℚ)) (i : ℕ) (e : String)
    (h : scanLookup d i = Except.error e) : e = "IndexError" := by
  unfold scanLookup at h
  cases hh : (d.filter (fun p => p.1 == i)).head? with
  | none => rw [hh] at h; cases h; rfl
  | some p => rw [hh] at h; cases h

theorem scanLookup_of_not_mem (d : List (ℕ × ℚ)) (i : ℕ)
    (h : i ∉ d.map Prod.fst) : scanLookup d i = Except.error "IndexError" := by
  unfold scanLookup
  have hfil : d.filter (fun p => p.1 == i) = [] := by
    rw [List.filter_eq_nil_iff]
    intro p hp hpi
    exact h (List.mem_map.2 ⟨p, hp, by simpa using hpi⟩)
  rw [hfil]
  rfl

theorem scanLookup_ok_eq (d : List (ℕ × ℚ)) (i : ℕ) (v : ℚ)
    (h : scanLookup d i = Except.ok v) : v = errOf d i := by
  unfold scanLookup at h
  rw [head?_filter_eq_find?] at h
  unfold errOf
  cases hf : d.find? (fun p => p.1 == i) with
  | none => rw [hf] at h; cases h
  | some p =>
    rw [hf] at h
    cases h
    rfl

theorem scanLookup_scaled (d : List (ℕ × ℚ)) (s : ℚ) (i : ℕ) :
    scanLookup (d.map (fun p => (p.1, p.2 * s))) i =
      (scanLookup d i).map (fun v => v * s) := by
  unfold scanLookup
  rw [List.filter_map]
  have hcomp : ((fun p : ℕ × ℚ => p.1 == i) ∘ fun p : ℕ × ℚ => (p.1, p.2 * s)) =
      (fun p : ℕ × ℚ => p.1 == i) := rfl
  rw [hcomp, List.head?_map]
  cases (d.filter (fun p => p.1 == i)).head? with
  | none => rfl
  | some p => rfl

theorem exMapM_scanLookup_ok (d : List (ℕ × ℚ)) :
    ∀ (ids : List ℕ) (vs : List ℚ), exMapM (scanLookup d) ids = Except.ok vs →
      vs = ids.map (errOf d) := by
  intro ids
  induction ids with
  | nil =>
    intro vs h
    simp only [exMapM] at h
    cases h
    rfl
  | cons x xs ih =>
    intro vs h
    simp only [exMapM] at h
    cases hfx : scanLookup d x with
    | error e => rw [hfx] at h; cases h
    | ok y =>
      rw [hfx] at h
      cases hrec : exMapM (scanLookup d) xs with
      | error e => rw [hrec] at h; cases h
      | ok zs =>
        rw [hrec] at h
        cases h
        simp [scanLookup_ok_eq d x y hfx, ih zs hrec]

theorem mem_binIds (binsMap : List (ℕ × ℕ)) (id_ b : ℕ)
    (hmem : (id_, b) ∈ binsMap) : id_ ∈ binIds binsMap b := by
  unfold binIds
  exact List.mem_map.2 ⟨(id_, b), List.mem_filter.2 ⟨hmem, by simp⟩, rfl⟩

theorem groupErrors_error_of_missing (errsMap : List (ℕ × ℚ))
    (binsMap : List (ℕ × ℕ)) (numBins : ℕ) (id_ b : ℕ)
    (hmem : (id_, b) ∈ binsMap) (hb : b < numBins)
    (hmiss : id_ ∉ errsMap.map Prod.fst) :
    groupErrors errsMap binsMap numBins = Except.error "IndexError" := by
  unfold groupErrors
  apply exMapM_error_of_mem _ _ _ _ b (List.mem_range.2 hb)
  · exact ⟨"IndexError",
      exMapM_error_of_mem _ _ (scanLookup_error_msg errsMap) _ id_
        (mem_binIds binsMap id_ b hmem) ⟨"IndexError", scanLookup_of_not_mem _ _ hmiss⟩⟩
  · intro y e hy
    exact exMapM_error_msg _ _ (scanLookup_error_msg errsMap) _ e hy

theorem groupErrors_ok_get? (errsMap : List (ℕ × ℚ)) (binsMap : List (ℕ × ℕ))
    (numBins : ℕ) (gs : List (List ℚ))
    (h : groupErrors errsMap binsMap numBins = Except.ok gs) (j : ℕ)
    (hj : j < numBins) :
    gs.get? j = some ((binIds binsMap j).map (errOf errsMap)) := by
  have hget := exMapM_ok_get? _ _ _ h j
  have hrange : (List.range numBins).get? j = some j := by
    simp [List.getElem?_range hj]
  rw [hrange] at hget
  cases hgs : gs.get? j with
  | none =>
    rw [hgs] at hget
    cases hget
  | some v =>
    rw [hgs] at hget
    simp only [Option.map_some'] at hget
    have hv := exMapM_scanLookup_ok errsMap _ _ (Option.some.inj hget)
    rw [hv]

theorem map_fst_scaled (d : List (ℕ × ℚ)) (s : ℚ) :
    (d.map (fun p => (p.1, p.2 * s))).map Prod.fst = d.map Prod.fst := by
  rw [List.map_map]
  rfl

theorem groupErrors_scaled (d : List (ℕ × ℚ)) (binsMap : List (ℕ × ℕ))
    (numBins : ℕ) (s : ℚ) :
    groupErrors (d.map (fun p => (p.1, p.2 * s))) binsMap numBins =
      (groupErrors d binsMap numBins).map (List.map (List.map (fun v => v * s))) := by
  unfold groupErrors
  exact exMapM_map_rel _ _ _
    (fun j => exMapM_map_rel _ _ _ (scanLookup_scaled d s) (binIds binsMap j))
    (List.range numBins)

theorem scaled_one (d : List (ℕ × ℚ)) :
    d.map (fun p => (p.1, p.2 * 1)) = d := by
  have : ∀ p : ℕ × ℚ, (p.1, p.2 * 1) = p := by
    intro p
    simp
  simp [this]

theorem errOf_scaled (d : List (ℕ × ℚ)) (s : ℚ) (i : ℕ) :
    errOf (d.map (fun p => (p.1, p.2 * s))) i = errOf d i * s := by
  unfold errOf
  rw [List.find?_map]
  have hcomp : ((fun p : ℕ × ℚ => p.1 == i) ∘ fun p : ℕ × ℚ => (p.1, p.2 * s)) =
      (fun p : ℕ × ℚ => p.1 == i) := rfl
  rw [hcomp]
  cases d.find? (fun p : ℕ × ℚ => p.1 == i) with
  | none => simp
  | some p => simp

theorem listMean_map_mul (l : List ℚ) (s : ℚ) :
    listMean (l.map (fun x => x * s)) = listMean l * s := by
  unfold listMean
  have hsum : (l.map (fun x => x * s)).sum = l.sum * s := by
    have := List.sum_map_mul_right l id s
    simpa using this
  rw [hsum, List.length_map]
  ring

theorem groupErrors_ok_length (errsMap : List (ℕ × ℚ)) (binsMap : List (ℕ × ℕ))
    (numBins : ℕ) (gs : List (List ℚ))
    (h : groupErrors errsMap binsMap numBins = Except.ok gs) :
    gs.length = numBins := by
  unfold groupErrors at h
  simpa using exMapM_ok_length _ _ _ h

theorem exMapM_ok_of_forall {α β : Type} (f : α → Except String β) (g : α → β) :
    ∀ (l : List α), (∀ x ∈ l, f x = Except.ok (g x)) →
      exMapM f l = Except.ok (l.map g) := by
  intro l
  induction l with
  | nil => intro _; rfl
  | cons x xs ih =>
    intro hall
    simp only [exMapM, hall x (List.mem_cons_self x xs),
      ih (fun y hy => hall y (List.mem_cons_of_mem x hy)), List.map_cons]

/-! ## Claim theorems -/

/-- C9: during bin grouping in every scorer (`bin_wise_bound_eval`,
`bin_wise_errors`, `bin_wise_jaccard`), an id that is present in the bin-label
map (with an in-range label) but absent from the error map makes the whole
per-target computation fail with the lookup IndexError; the id is never
silently dropped from the group. -/
theorem C9_grouping_missing_id_raises (bounds : List ℚ) (errsMap : List (ℕ × ℚ))
    (binsMap : List (ℕ × ℕ)) (numBins numBinsQuantiles : ℕ) (s : ℚ)
    (combineMiddleBins : Bool) (id_ b : ℕ)
    (hmem : (id_, b) ∈ binsMap) (hb : b < numBins)
    (hmiss : id_ ∉ errsMap.map Prod.fst) :
    boundEvalTarget bounds errsMap binsMap numBins = Except.error "IndexError" ∧
    errorsTarget errsMap binsMap numBins s = Except.error "IndexError" ∧
    jaccardTarget errsMap binsMap numBins numBinsQuantiles combineMiddleBins =
      Except.error "IndexError" := by
  have hg := groupErrors_error_of_missing errsMap binsMap numBins id_ b hmem hb hmiss
  refine ⟨?_, ?_, ?_⟩
  · unfold boundEvalTarget
    rw [hg]
  · unfold errorsTarget
    have hmiss2 : id_ ∉ (errsMap.map (fun p => (p.1, p.2 * s))).map Prod.fst := by
      rw [map_fst_scaled]
      exact hmiss
    rw [groupErrors_error_of_missing _ binsMap numBins id_ b hmem hb hmiss2]
  · unfold jaccardTarget
    rw [hg]

/-- Witness for C9 at a concrete input: id 9 is binned into bin 1 of 2 but has
no error entry, and each of the three scorers raises IndexError. -/
theorem C9_witness :
    ((9, 1) ∈ ([(1, 0), (9, 1)] : List (ℕ × ℕ)) ∧ 1 < 2 ∧
      9 ∉ ([(1, (2 : ℚ))].map Prod.fst)) ∧
    (boundEvalTarget [2] [(1, 2)] [(1, 0), (9, 1)] 2 = Except.error "IndexError" ∧
     errorsTarget [(1, 2)] [(1, 0), (9, 1)] 2 1 = Except.error "IndexError" ∧
     jaccardTarget [(1, 2)] [(1, 0), (9, 1)] 2 2 false = Except.error "IndexError") :=
  ⟨⟨by decide, by decide, by norm_num⟩,
   C9_grouping_missing_id_raises [2] [(1, 2)] [(1, 0), (9, 1)] 2 2 1 false 9 1
     (by decide) (by decide) (by norm_num)⟩

/-- C6: in `bin_wise_errors`, the per-bin mean equals the arithmetic mean of
`error * error_scaling_factor` over exactly the ids whose predicted bin label
equals that bin, an empty bin being skipped (`none`, never 0); and replacing
scaling factor 1.0 with `s` multiplies every per-bin mean by `s`. -/
theorem C6_bin_mean_scaling (errsMap : List (ℕ × ℚ)) (binsMap : List (ℕ × ℕ))
    (numBins : ℕ) (s : ℚ) (r1 rs : ErrTargetResult)
    (h1 : errorsTarget errsMap binsMap numBins 1 = Except.ok r1)
    (hs : errorsTarget errsMap binsMap numBins s = Except.ok rs) :
    (∀ j, j < numBins →
      rs.binMeans.getD j none =
        if binIds binsMap j = [] then none
        else some (listMean ((binIds binsMap j).map (fun i => errOf errsMap i * s)))) ∧
    rs.binMeans = r1.binMeans.map (Option.map (fun x => x * s)) := by
  unfold errorsTarget at h1 hs
  rw [scaled_one] at h1
  cases hgd : groupErrors errsMap binsMap numBins with
  | error e =>
    rw [hgd] at h1
    cases h1
  | ok gs =>
    rw [hgd] at h1
    have hscaled := groupErrors_scaled errsMap binsMap numBins s
    rw [hgd] at hscaled
    rw [hscaled] at hs
    dsimp only [Except.map] at h1 hs
    cases h1
    cases hs
    have key : ∀ l : List ℚ,
        (if l.map (fun v => v * s) = [] then none
         else some (listMean (l.map (fun v => v * s)))) =
          Option.map (fun x => x * s) (if l = [] then none else some (listMean l)) := by
      intro l
      by_cases hl : l = []
      · subst hl
        simp
      · rw [if_neg hl, if_neg (by simpa using hl)]
        simp [listMean_map_mul]
    constructor
    · intro j hj
      have hlen : (gs.map (List.map (fun v => v * s))).length = numBins := by
        rw [List.length_map]
        exact groupErrors_ok_length _ _ _ _ hgd
      have hget := groupErrors_ok_get? _ binsMap numBins _ hscaled j hj
      simp only [List.get?_eq_getElem?] at hget
      simp only [List.getD_eq_getElem?_getD, List.getElem?_map, hget]
      simp only [errOf_scaled, Option.map_some', Option.getD_some]
      by_cases hid : binIds binsMap j = []
      · simp [hid]
      · rw [if_neg (by simpa using hid), if_neg hid]
        have hmapeq : (binIds binsMap j).map (errOf (errsMap.map (fun p => (p.1, p.2 * s)))) =
            (binIds binsMap j).map (fun i => errOf errsMap i * s) := by
          apply List.map_congr_left
          intro i _
          exact errOf_scaled errsMap s i
        rw [hmapeq]
    · simp only [List.map_map]
      apply List.map_congr_left
      intro l _
      exact key l

/-- Witness for C6 at the spec's mean-error fixture (errors 2, 4, 10 with bins
0, 0, 1): bin means 3 and 10; with scaling factor 3 they become 9 and 30. -/
theorem C6_witness :
    errorsTarget [(1, 2), (2, 4), (3, 10)] [(1, 0), (2, 0), (3, 1)] 2 1 =
      Except.ok ⟨[some 3, some 10], [[2, 4], [10]], 13/2⟩ ∧
    errorsTarget [(1, 2), (2, 4), (3, 10)] [(1, 0), (2, 0), (3, 1)] 2 3 =
      Except.ok ⟨[some 9, some 30], [[6, 12], [30]], 39/2⟩ ∧
    (⟨[some 9, some 30], [[6, 12], [30]], 39/2⟩ : ErrTargetResult).binMeans =
      (⟨[some 3, some 10], [[2, 4], [10]], 13/2⟩ : ErrTargetResult).binMeans.map
        (Option.map (fun x => x * 3)) := by
  have h1 : errorsTarget [(1, 2), (2, 4), (3, 10)] [(1, 0), (2, 0), (3, 1)] 2 1 =
      Except.ok ⟨[some 3, some 10], [[2, 4], [10]], 13/2⟩ := by
    simp [errorsTarget, groupErrors, exMapM, binIds, scanLookup, listMean,
      List.filter, List.range_succ, List.reduceOption]
    norm_num
  have hs : errorsTarget [(1, 2), (2, 4), (3, 10)] [(1, 0), (2, 0), (3, 1)] 2 3 =
      Except.ok ⟨[some 9, some 30], [[6, 12], [30]], 39/2⟩ := by
    simp [errorsTarget, groupErrors, exMapM, binIds, scanLookup, listMean,
      List.filter, List.range_succ, List.reduceOption]
    norm_num
  exact ⟨h1, hs,
    (C6_bin_mean_scaling [(1, 2), (2, 4), (3, 10)] [(1, 0), (2, 0), (3, 1)] 2 3
      _ _ h1 hs).2⟩

/-- C1: evaluation of `bin_wise_bound_eval` at an input whose predicted bin 0
is empty.  Because the source tests `inner_bin_correct == 0` before
`len(inbin_errors) == 0`, an empty bin is scored 0.0, not the claimed 1.0
(first conjunct: an empty bin always scores 0, whatever the bounds).  At the
concrete input, bin 0 holds no sample and bin 1 holds one correctly bounded
sample, and the per-bin accuracies come out as 0.0 and 1.0 — the claimed
empty-bin policy of 1.0 is unreachable dead code. -/
theorem C1_empty_bin_scored_zero :
    (∀ (bounds : List ℚ) (numBins q : ℕ),
      accuracyBin (innerBinCorrect bounds numBins q []) ([] : List ℚ).length = 0) ∧
    bin_wise_bound_eval [[2]] [⟨1, 0, 0, 3, 1⟩] [0] 2 =
      Except.ok ⟨1, [0, 1], [[0], [1]], [[[0], [1]]]⟩ := by
  constructor
  · intro bounds numBins q
    simp [innerBinCorrect, accuracyBin]
  · simp [bin_wise_bound_eval, boundEvalTarget, groupErrors, exMapM, binIds, scanLookup,
      targetErrsMap, targetBinsMap, accuracyBin, innerBinCorrect, boundMember,
      weightedAveBin, listMean, pyIdx, List.filter, List.range_succ, List.enum,
      List.enumFrom]
    norm_num

/-- C2: `quantile_binning_and_est_errors` called with type "error-wise" does
not raise at all: the validity check accepts the hyphenated spelling while the
not-implemented branch tests the underscored spelling "error_wise", so the
call falls through both branches and silently returns the empty pair.  The
underscored spelling is instead rejected by the validity check, which makes
the NotImplementedError unreachable. -/
theorem C2_error_wise_returns_silently :
    quantile_binning_and_est_errors [1] [1] 2 "error-wise" 5 false (fun x => x) =
      Except.ok ([], []) ∧
    quantile_binning_and_est_errors [1] [1] 2 "error_wise" 5 false (fun x => x) =
      Except.error "ValueError: results: type must be one of valid_types." := by
  constructor <;> simp [quantile_binning_and_est_errors]

/-- C3 (counterexample to the claim as stated): a target contributing zero
total samples makes `bin_wise_bound_eval` divide by zero — the per-target
weighted average has no guard, so the claim's "never causes a division by
zero" is false. -/
theorem C3_counterexample :
    bin_wise_bound_eval [[1]] [] [0] 2 = Except.error "ZeroDivisionError" := by
  simp [bin_wise_bound_eval, boundEvalTarget, groupErrors, exMapM, binIds, scanLookup,
    targetErrsMap, targetBinsMap, pyIdx, List.filter, List.range_succ, List.enum]

/-- C3 (amended): the per-target summary of `bin_wise_bound_eval` is the
size-weighted mean of the per-bin accuracies with bin population as weight;
and a target contributing zero total samples (every bin empty) is not
skipped but raises ZeroDivisionError. -/
theorem C3_weighted_mean_and_div_by_zero (bounds : List ℚ) (errsMap : List (ℕ × ℚ))
    (binsMap : List (ℕ × ℕ)) (numBins : ℕ) :
    (∀ r, boundEvalTarget bounds errsMap binsMap numBins = Except.ok r →
      r.binsSizes.sum ≠ 0 ∧
      r.weightedAve =
        (List.zipWith (fun a s => a * (s : ℚ)) r.binsAcc r.binsSizes).sum /
          ((r.binsSizes.sum : ℕ) : ℚ)) ∧
    ((∀ j, j < numBins → binIds binsMap j = []) →
      boundEvalTarget bounds errsMap binsMap numBins =
        Except.error "ZeroDivisionError") := by
  constructor
  · intro r hr
    unfold boundEvalTarget at hr
    cases hgd : groupErrors errsMap binsMap numBins with
    | error e =>
      rw [hgd] at hr
      cases hr
    | ok gs =>
      rw [hgd] at hr
      dsimp only at hr
      by_cases hz : (gs.map List.length).sum = 0
      · rw [if_pos hz] at hr
        cases hr
      · rw [if_neg hz] at hr
        cases hr
        exact ⟨hz, rfl⟩
  · intro hempty
    unfold boundEvalTarget
    have hgd : groupErrors errsMap binsMap numBins =
        Except.ok ((List.range numBins).map (fun _ => [])) := by
      unfold groupErrors
      apply exMapM_ok_of_forall
      intro j hj
      rw [hempty j (List.mem_range.1 hj)]
      rfl
    rw [hgd]
    dsimp only
    rw [if_pos]
    simp [List.map_map]

/-- Witness for C3 at concrete inputs: a target with one sample in bin 0 of 2
gets weighted average 1; a target with no samples raises ZeroDivisionError. -/
theorem C3_witness :
    boundEvalTarget [2] [(1, 1)] [(1, 0)] 2 = Except.ok ⟨[1, 0], [1, 0], 1⟩ ∧
    (([1, 0] : List ℕ).sum ≠ 0 ∧
      (1 : ℚ) = (List.zipWith (fun a s => a * (s : ℚ)) [1, 0] [1, 0]).sum /
        ((([1, 0] : List ℕ).sum : ℕ) : ℚ)) ∧
    ((∀ j, j < 2 → binIds ([] : List (ℕ × ℕ)) j = []) ∧
      boundEvalTarget [2] [(1, 1)] [] 2 = Except.error "ZeroDivisionError") := by
  have hok : boundEvalTarget [2] [(1, 1)] [(1, 0)] 2 = Except.ok ⟨[1, 0], [1, 0], 1⟩ := by
    simp [boundEvalTarget, groupErrors, exMapM, binIds, scanLookup, accuracyBin,
      innerBinCorrect, boundMember, List.filter, List.range_succ, List.enum,
      List.enumFrom]
  have hempty : ∀ j, j < 2 → binIds ([] : List (ℕ × ℕ)) j = [] := by
    intro j _
    rfl
  refine ⟨hok, ?_, hempty,
    (C3_weighted_mean_and_div_by_zero [2] [(1, 1)] [] 2).2 hempty⟩
  have h2 := (C3_weighted_mean_and_div_by_zero [2] [(1, 1)] [(1, 0)] 2).1 _ hok
  exact ⟨h2.1, h2.2⟩

theorem inter_eq_filter_mem (l1 l2 : List ℕ) :
    l1 ∩ l2 = l1.filter (fun x => decide (x ∈ l2)) := by
  rw [List.inter_def]
  apply List.filter_congr
  intro x _
  exact List.elem_eq_mem x l2

/-- C4: in `bin_wise_jaccard`, a bin whose ground-truth quantile group is
empty scores recall 1.0 and precision 0.0 regardless of the predicted group;
a non-empty ground-truth group scores recall `|pred ∩ gt| / |gt|`, and
precision 0.0 when the predicted group is empty, else `|pred ∩ gt| / |pred|`.
Groups are read in the reversed (worst-to-best) bin order the source
compares them in. -/
theorem C4_recall_precision_policy (errsMap : List (ℕ × ℚ)) (binsMap : List (ℕ × ℕ))
    (numBins numBinsQuantiles : ℕ) (combineMiddleBins : Bool)
    (gGroups : List (List ℕ)) (r : JaccTargetResult) (k : ℕ)
    (hg : gtGroupsUsed errsMap numBinsQuantiles combineMiddleBins = Except.ok gGroups)
    (hok : jaccardTarget errsMap binsMap numBins numBinsQuantiles combineMiddleBins =
      Except.ok r)
    (hk : k < numBins) :
    (gGroups.reverse.getD k [] = [] →
      r.recalls.getD k 0 = 1 ∧ r.precisions.getD k 0 = 0) ∧
    (gGroups.reverse.getD k [] ≠ [] →
      r.recalls.getD k 0 =
        ((((predGroupsR binsMap numBins).getD k [] ∩
            gGroups.reverse.getD k []).length : ℚ) /
          ((gGroups.reverse.getD k []).length : ℚ)) ∧
      ((predGroupsR binsMap numBins).getD k [] = [] → r.precisions.getD k 0 = 0) ∧
      ((predGroupsR binsMap numBins).getD k [] ≠ [] →
        r.precisions.getD k 0 =
          ((((predGroupsR binsMap numBins).getD k [] ∩
              gGroups.reverse.getD k []).length : ℚ) /
            ((predGroupsR binsMap numBins).getD k []).length))) := by
  unfold jaccardTarget at hok
  cases hge : groupErrors errsMap binsMap numBins with
  | error e =>
    rw [hge] at hok
    cases hok
  | ok gs =>
    rw [hge, hg] at hok
    dsimp only at hok
    cases hexm : exMapM (jaccBinStep (predGroupsR binsMap numBins) gGroups.reverse)
        (List.range numBins) with
    | error e =>
      rw [hexm] at hok
      cases hok
    | ok vals =>
      rw [hexm] at hok
      dsimp only at hok
      cases hok
      have hval := exMapM_ok_get? _ _ _ hexm k
      have hrange : (List.range numBins).get? k = some k := by
        simp [List.getElem?_range hk]
      rw [hrange] at hval
      cases hvk : vals.get? k with
      | none =>
        rw [hvk] at hval
        cases hval
      | some v =>
        rw [hvk] at hval
        simp only [Option.map_some'] at hval
        have hstep := Option.some.inj hval
        unfold jaccBinStep at hstep
        cases hpy : pyIdx gGroups.reverse k with
        | error e =>
          rw [hpy] at hstep
          cases hstep
        | ok gt =>
          rw [hpy] at hstep
          dsimp only at hstep
          have hgt : gGroups.reverse.getD k [] = gt := by
            unfold pyIdx at hpy
            cases hq : gGroups.reverse.get? k with
            | none =>
              rw [hq] at hpy
              cases hpy
            | some g =>
              rw [hq] at hpy
              cases hpy
              rw [List.getD_eq_getElem?_getD, ← List.get?_eq_getElem?, hq]
              rfl
          have hrec : JaccTargetResult.recalls
                ⟨vals.map (fun x => x.1), vals.map (fun x => x.2.1),
                  vals.map (fun x => x.2.2)⟩ = vals.map (fun x => x.2.1) := rfl
          have hrecget : (vals.map (fun x => x.2.1)).getD k 0 = v.2.1 := by
            rw [List.getD_eq_getElem?_getD, List.getElem?_map,
              ← List.get?_eq_getElem?, hvk]
            rfl
          have hprecget : (vals.map (fun x => x.2.2)).getD k 0 = v.2.2 := by
            rw [List.getD_eq_getElem?_getD, List.getElem?_map,
              ← List.get?_eq_getElem?, hvk]
            rfl
          have hv := Except.ok.inj hstep
          rw [hgt]
          dsimp only [JaccTargetResult.recalls, JaccTargetResult.precisions]
          rw [hrecget, hprecget, ← hv]
          dsimp only
          unfold recallPrecision
          by_cases hgtnil : gt = []
          · rw [if_pos hgtnil]
            constructor
            · intro _
              exact ⟨rfl, rfl⟩
            · intro hcon
              cases hcon hgtnil
          · rw [if_neg hgtnil]
            constructor
            · intro hcon
              cases hgtnil hcon
            · intro _
              refine ⟨?_, ?_, ?_⟩
              · rw [inter_eq_filter_mem]
              · intro hpred
                dsimp only
                rw [if_pos ⟨hpred, by
                  have : gt.length ≠ 0 := fun h => hgtnil (List.length_eq_zero.1 h)
                  omega⟩]
              · intro hpred
                dsimp only
                rw [if_neg (fun hc => hpred hc.1), inter_eq_filter_mem]

/-- Witness for C4 at a concrete input: two samples with errors 10 and 20 in
predicted bins 0 and 1 of 2; the ground-truth median split matches the
prediction exactly, so both bins score recall 1 and precision 1. -/
theorem C4_witness :
    gtGroupsUsed [(1, 10), (2, 20)] 2 false = Except.ok [[1], [2]] ∧
    jaccardTarget [(1, 10), (2, 20)] [(1, 0), (2, 1)] 2 2 false =
      Except.ok ⟨[1, 1], [1, 1], [1, 1]⟩ ∧
    (([[1], [2]] : List (List ℕ)).reverse.getD 0 [] ≠ [] →
      (⟨[1, 1], [1, 1], [1, 1]⟩ : JaccTargetResult).recalls.getD 0 0 =
        ((((predGroupsR [(1, 0), (2, 1)] 2).getD 0 [] ∩
            ([[1], [2]] : List (List ℕ)).reverse.getD 0 []).length : ℚ) /
          ((([[1], [2]] : List (List ℕ)).reverse.getD 0 []).length : ℚ)) ∧
      ((predGroupsR [(1, 0), (2, 1)] 2).getD 0 [] = [] →
        (⟨[1, 1], [1, 1], [1, 1]⟩ : JaccTargetResult).precisions.getD 0 0 = 0) ∧
      ((predGroupsR [(1, 0), (2, 1)] 2).getD 0 [] ≠ [] →
        (⟨[1, 1], [1, 1], [1, 1]⟩ : JaccTargetResult).precisions.getD 0 0 =
          ((((predGroupsR [(1, 0), (2, 1)] 2).getD 0 [] ∩
              ([[1], [2]] : List (List ℕ)).reverse.getD 0 []).length : ℚ) /
            ((predGroupsR [(1, 0), (2, 1)] 2).getD 0 []).length))) := by
  have ht : gtThresholds [(1, 10), (2, 20)] 2 = [15] := by
    unfold gtThresholds quantilePoints sortedErrors npQuantile npQuantileSorted
    simp [List.insertionSort, List.orderedInsert, List.range_succ]
    norm_num [Int.fract]
  have hg : gtGroupsUsed [(1, 10), (2, 20)] 2 false = Except.ok [[1], [2]] := by
    simp [gtGroupsUsed, ht, keyGroupsOf, groupCond, List.range_succ, List.filter]
    norm_num
  have hok : jaccardTarget [(1, 10), (2, 20)] [(1, 0), (2, 1)] 2 2 false =
      Except.ok ⟨[1, 1], [1, 1], [1, 1]⟩ := by
    simp [jaccardTarget, gtGroupsUsed, ht, keyGroupsOf, groupCond, groupErrors,
      exMapM, binIds, scanLookup, predGroupsR, jaccBinStep, jaccard_similarity,
      recallPrecision, pyIdx, List.range_succ, List.filter]
    norm_num
  exact ⟨hg, hok,
    (C4_recall_precision_policy [(1, 10), (2, 20)] [(1, 0), (2, 1)] 2 2 false
      [[1], [2]] ⟨[1, 1], [1, 1], [1, 1]⟩ 0 hg hok (by decide)).2⟩

/-- C8 (counterexample to the claim as stated): with the bound table missing,
the bound evaluator does raise the configuration ValueError, but only inside
the first fold iteration — fold 0's data IS extracted before the failure (the
trace is `[extract 0]`, not empty), contradicting "no fold's data is
extracted or scored before the failure". -/
theorem C8_counterexample :
    boundProcessFolds [("u", [⟨1, 0, 0, 1, 0⟩])] "u" none (some "m") [0] 2 3 =
      ([FoldEv.extract 0],
       Except.error "ValueError: estimated_bounds and model are required for BoundEvaluationHandler") ∧
    ([FoldEv.extract 0] : List FoldEv) ≠ [] := by
  constructor
  · unfold boundProcessFolds
    rw [show List.range 3 = [0, 1, 2] from rfl]
    simp [boundFoldLoop, boundStep, extractFoldData, pyFalsyBounds, List.filter]
  · simp

/-- C8 (amended): whenever the bound table or the model name is missing
(Python-falsy), the bound evaluation fails with the configuration ValueError
during the first fold iteration, before any fold is scored; exactly the first
fold's data is extracted before the check fires. -/
theorem C8_missing_bounds_fails_first_fold (md : ModelData) (utype : String)
    (eb : Option EstBounds) (model : Option String) (targets : List ℤ)
    (numBins numFolds : ℕ) (rows : List SRow)
    (hmissing : pyFalsyBounds eb = true ∨ pyFalsyStr model = true)
    (hfolds : 1 ≤ numFolds)
    (hextract : extractFoldData md utype 0 = Except.ok rows) :
    boundProcessFolds md utype eb model targets numBins numFolds =
      ([FoldEv.extract 0],
       Except.error "ValueError: estimated_bounds and model are required for BoundEvaluationHandler") := by
  obtain ⟨k, rfl⟩ : ∃ k, numFolds = k + 1 := ⟨numFolds - 1, by omega⟩
  unfold boundProcessFolds
  rw [List.range_succ_eq_map]
  have hstep : boundStep md utype eb model targets numBins 0 =
      ([FoldEv.extract 0],
       Except.error "ValueError: estimated_bounds and model are required for BoundEvaluationHandler") := by
    unfold boundStep
    rw [hextract]
    dsimp only
    rw [if_pos (show (pyFalsyBounds eb || pyFalsyStr model) = true by
      rcases hmissing with h | h <;> simp [h])]
  unfold boundFoldLoop
  rw [hstep]

/-- Witness for C8 at a concrete input: an empty bound table dictionary is
falsy, the first fold's data extracts fine, and the two-fold evaluation stops
with the ValueError after extracting (only) fold 0. -/
theorem C8_witness :
    (pyFalsyBounds (some []) = true ∨ pyFalsyStr (some "m") = true) ∧
    1 ≤ 2 ∧
    extractFoldData [("u", [⟨1, 0, 0, 1, 0⟩])] "u" 0 = Except.ok [⟨1, 0, 0, 1, 0⟩] ∧
    boundProcessFolds [("u", [⟨1, 0, 0, 1, 0⟩])] "u" (some []) (some "m") [0] 2 2 =
      ([FoldEv.extract 0],
       Except.error "ValueError: estimated_bounds and model are required for BoundEvaluationHandler") := by
  have hext : extractFoldData [("u", [⟨1, 0, 0, 1, 0⟩])] "u" 0 =
      Except.ok [⟨1, 0, 0, 1, 0⟩] := by
    simp [extractFoldData, List.filter]
  exact ⟨Or.inl rfl, by omega, hext,
    C8_missing_bounds_fails_first_fold [("u", [⟨1, 0, 0, 1, 0⟩])] "u" (some [])
      (some "m") [0] 2 2 [⟨1, 0, 0, 1, 0⟩] (Or.inl rfl) (by omega) hext⟩

theorem updAssoc_lookup_self {α : Type} (d : ResDict α) (k : String) (v : α) :
    lookupRes (updAssoc d k v) k = some v := by
  unfold updAssoc lookupRes
  by_cases hany : d.any (fun p => p.1 == k)
  · rw [if_pos hany]
    induction d with
    | nil => cases hany
    | cons p ps ih =>
      by_cases hp : (p.1 == k) = true
      · rw [List.map_cons, if_pos hp, List.find?_cons, beq_self_eq_true]
        rfl
      · have hpf : (p.1 == k) = false := by simpa using hp
        rw [List.map_cons, if_neg hp, List.find?_cons, hpf]
        apply ih
        simp only [List.any_cons, Bool.or_eq_true] at hany
        rcases hany with h | h
        · cases hp h
        · exact h
  · rw [if_neg hany]
    have hnone : d.find? (fun p => p.1 == k) = none := by
      rw [List.find?_eq_none]
      intro p hp hpk
      exact hany (List.any_of_mem hp hpk)
    rw [List.find?_append, hnone]
    simp

theorem reverse_getD_front {α : Type} (l : List α) (d : α) (h : 1 ≤ l.length) :
    l.reverse.getD 0 d = l.getD (l.length - 1) d := by
  rw [List.getD_eq_getElem?_getD, List.getD_eq_getElem?_getD,
    List.getElem?_reverse (by omega), Nat.sub_zero]

theorem reverse_getD_back {α : Type} (l : List α) (d : α) (h : 1 ≤ l.length) :
    l.reverse.getD (l.length - 1) d = l.getD 0 d := by
  rw [List.getD_eq_getElem?_getD, List.getD_eq_getElem?_getD,
    List.getElem?_reverse (by omega),
    show l.length - 1 - (l.length - 1) = 0 from by omega]

/-- C7 (amended): the bound evaluator's aggregation reverses its two bin-mean
outputs to worst-to-best order (finalized index 0 reads the raw entry
`num_bins - 1` and vice versa), and the mean-error evaluator reverses all five
of its outputs, including the per-target ones; but the bound evaluator's two
target-separated concatenated outputs are assigned in raw scorer order, not
reversed. -/
theorem C7_display_reversal (bres : BoundResults) (eres : ErrorResults)
    (model utype : String) (bacc : BoundAcc) (eacc : ErrorAcc) (numBins : ℕ)
    (hn : 1 ≤ numBins)
    (hb1 : bacc.meanBins.length = numBins)
    (hb2 : bacc.binsNoTargetSep.length = numBins)
    (he1 : eacc.meanBins.length = numBins)
    (he2 : eacc.allBins.length = numBins)
    (he3 : eacc.concatNoSep.length = numBins) :
    (lookupRes (boundAggregate bres model utype bacc).allBoundPercents
        (model ++ " " ++ utype) = some bacc.meanBins.reverse ∧
      bacc.meanBins.reverse.getD 0 [] = bacc.meanBins.getD (numBins - 1) [] ∧
      bacc.meanBins.reverse.getD (numBins - 1) [] = bacc.meanBins.getD 0 []) ∧
    (lookupRes (boundAggregate bres model utype bacc).allBoundPercentsNoTargetSep
        (model ++ " " ++ utype) = some bacc.binsNoTargetSep.reverse ∧
      bacc.binsNoTargetSep.reverse.getD 0 [] = bacc.binsNoTargetSep.getD (numBins - 1) [] ∧
      bacc.binsNoTargetSep.reverse.getD (numBins - 1) [] = bacc.binsNoTargetSep.getD 0 []) ∧
    (∀ t, t < bres.concatSepFoldwise.length →
      lookupRes ((boundAggregate bres model utype bacc).concatSepFoldwise.getD t [])
        (model ++ " " ++ utype) = some (bacc.concatSepFoldwise.getD t [])) ∧
    (∀ t, t < bres.concatSepAll.length →
      lookupRes ((boundAggregate bres model utype bacc).concatSepAll.getD t [])
        (model ++ " " ++ utype) = some (bacc.concatSepAll.getD t [])) ∧
    (lookupRes (errorAggregate eres model utype eacc).allMeanErrorBins
        (model ++ " " ++ utype) = some eacc.meanBins.reverse ∧
      eacc.meanBins.reverse.getD 0 [] = eacc.meanBins.getD (numBins - 1) [] ∧
      eacc.meanBins.reverse.getD (numBins - 1) [] = eacc.meanBins.getD 0 []) ∧
    (lookupRes (errorAggregate eres model utype eacc).allMeanErrorBinsTargetsSep
        (model ++ " " ++ utype) = some eacc.allBins.reverse ∧
      eacc.allBins.reverse.getD 0 [] = eacc.allBins.getD (numBins - 1) [] ∧
      eacc.allBins.reverse.getD (numBins - 1) [] = eacc.allBins.getD 0 []) ∧
    (lookupRes (errorAggregate eres model utype eacc).concatNoSep
        (model ++ " " ++ utype) = some eacc.concatNoSep.reverse ∧
      eacc.concatNoSep.reverse.getD 0 [] = eacc.concatNoSep.getD (numBins - 1) [] ∧
      eacc.concatNoSep.reverse.getD (numBins - 1) [] = eacc.concatNoSep.getD 0 []) ∧
    (∀ t, t < eres.concatSepFoldwise.length →
      lookupRes ((errorAggregate eres model utype eacc).concatSepFoldwise.getD t [])
        (model ++ " " ++ utype) = some ((eacc.concatSepFoldwise.getD t []).reverse)) ∧
    (∀ t, t < eres.concatSepAll.length →
      lookupRes ((errorAggregate eres model utype eacc).concatSepAll.getD t [])
        (model ++ " " ++ utype) = some ((eacc.concatSepAll.getD t []).reverse)) := by
  dsimp only [boundAggregate, errorAggregate]
  refine ⟨⟨updAssoc_lookup_self _ _ _, ?_, ?_⟩,
    ⟨updAssoc_lookup_self _ _ _, ?_, ?_⟩, ?_, ?_,
    ⟨updAssoc_lookup_self _ _ _, ?_, ?_⟩,
    ⟨updAssoc_lookup_self _ _ _, ?_, ?_⟩,
    ⟨updAssoc_lookup_self _ _ _, ?_, ?_⟩, ?_, ?_⟩
  · rw [← hb1]
    exact reverse_getD_front _ _ (by omega)
  · rw [← hb1]
    exact reverse_getD_back _ _ (by omega)
  · rw [← hb2]
    exact reverse_getD_front _ _ (by omega)
  · rw [← hb2]
    exact reverse_getD_back _ _ (by omega)
  · intro t ht
    rw [List.getD_eq_getElem _ _ (by simpa using ht), List.getElem_mapIdx]
    exact updAssoc_lookup_self _ _ _
  · intro t ht
    rw [List.getD_eq_getElem _ _ (by simpa using ht), List.getElem_mapIdx]
    exact updAssoc_lookup_self _ _ _
  · rw [← he1]
    exact reverse_getD_front _ _ (by omega)
  · rw [← he1]
    exact reverse_getD_back _ _ (by omega)
  · rw [← he2]
    exact reverse_getD_front _ _ (by omega)
  · rw [← he2]
    exact reverse_getD_back _ _ (by omega)
  · rw [← he3]
    exact reverse_getD_front _ _ (by omega)
  · rw [← he3]
    exact reverse_getD_back _ _ (by omega)
  · intro t ht
    rw [List.getD_eq_getElem _ _ (by simpa using ht), List.getElem_mapIdx]
    exact updAssoc_lookup_self _ _ _
  · intro t ht
    rw [List.getD_eq_getElem _ _ (by simpa using ht), List.getElem_mapIdx]
    exact updAssoc_lookup_self _ _ _

/-- C7 (counterexample to "every finalized per-bin output is the reverse"):
in a one-fold, one-target, two-bin bound evaluation whose raw per-bin
accuracy lists are `[[1], [0]]`, the finalized target-separated concatenated
outputs keep the raw order `[[1], [0]]`; their entry 0 differs from the raw
entry `num_bins - 1`, so the claimed reversal identity fails for them (the
two bin-mean outputs are reversed to `[[0], [1]]`). -/
theorem C7_counterexample :
    evaluate_bounds (some [("m Error Bounds", [(0, [("u", [[2]])])])])
      [("m", [("u", [⟨1, 0, 0, 1, 0⟩, ⟨2, 0, 0, 1, 1⟩])])] [["u"]] 2 [0] 1 false =
      Except.ok ⟨[("m u", [[0], [1]])], [("m u", [[0], [1]])],
        [[("m u", [[1], [0]])]], [[("m u", [[1], [0]])]]⟩ ∧
    (boundProcessFolds [("u", [⟨1, 0, 0, 1, 0⟩, ⟨2, 0, 0, 1, 1⟩])] "u"
      (some [("m Error Bounds", [(0, [("u", [[2]])])])]) (some "m") [0] 2 1).2 =
      Except.ok ⟨[1/2], [[1], [0]], [[1], [0]], [[[1], [0]]], [[[1], [0]]]⟩ ∧
    ([[1], [0]] : List (List ℚ)).getD 0 [] ≠ ([[1], [0]] : List (List ℚ)).getD (2 - 1) [] := by
  refine ⟨?_, ?_, ?_⟩
  · simp [evaluate_bounds, boundModelLoop, boundPairLoop, boundProcessFolds,
      boundFoldLoop, boundStep, boundInitAcc, boundAccumulate, boundInitResults,
      boundAggregate, extractFoldData, foldBoundsOf, pyFalsyBounds, pyFalsyStr,
      bin_wise_bound_eval, boundEvalTarget, groupErrors, exMapM, binIds, scanLookup,
      targetErrsMap, targetBinsMap, accuracyBin, innerBinCorrect, boundMember,
      weightedAveBin, listMean, pyIdx, updAssoc, lookupRes, appendEach, concatEach,
      concatNested, List.filter, List.range_succ, List.enum, List.enumFrom,
      List.mapIdx_cons, List.mapIdx_nil, List.replicate,
      show ("m".isEmpty) = false from rfl]
  · simp [boundProcessFolds, boundFoldLoop, boundStep, boundInitAcc, boundAccumulate,
      extractFoldData, foldBoundsOf, pyFalsyBounds, pyFalsyStr,
      bin_wise_bound_eval, boundEvalTarget, groupErrors, exMapM, binIds, scanLookup,
      targetErrsMap, targetBinsMap, accuracyBin, innerBinCorrect, boundMember,
      weightedAveBin, listMean, pyIdx, appendEach, concatEach, concatNested,
      List.filter, List.range_succ, List.enum, List.enumFrom, List.mapIdx_cons,
      List.mapIdx_nil, List.replicate, show ("m".isEmpty) = false from rfl]
  · norm_num

/-- Witness for C7 at concrete accumulators with two bins: the bin-mean
output is looked up reversed, the bound evaluator's target-separated output
is looked up in raw order, and the error evaluator's target-separated output
is looked up reversed. -/
theorem C7_witness :
    (1 ≤ 2 ∧ ([[1], [0]] : List (List ℚ)).length = 2) ∧
    lookupRes (boundAggregate (boundInitResults 1) "m" "u"
        ⟨[1/2], [[1], [0]], [[1], [0]], [[[1], [0]]], [[[1], [0]]]⟩).allBoundPercents
      ("m" ++ " " ++ "u") = some (([[1], [0]] : List (List ℚ)).reverse) ∧
    lookupRes ((boundAggregate (boundInitResults 1) "m" "u"
        ⟨[1/2], [[1], [0]], [[1], [0]], [[[1], [0]]], [[[1], [0]]]⟩).concatSepFoldwise.getD 0 [])
      ("m" ++ " " ++ "u") =
      some (([[[1], [0]]] : List (List (List ℚ))).getD 0 []) ∧
    lookupRes ((errorAggregate (errorInitResults 1) "m" "u"
        ⟨[5], [[some 1], [none]], [[1], [2]], [[[[1]], [[2]]]], [[[1], [2]]],
          [[1], [2]]⟩).concatSepFoldwise.getD 0 [])
      ("m" ++ " " ++ "u") =
      some ((([[[[1]], [[2]]]] : List (List (List (List ℚ)))).getD 0 []).reverse) := by
  have h := C7_display_reversal (boundInitResults 1) (errorInitResults 1) "m" "u"
    ⟨[1/2], [[1], [0]], [[1], [0]], [[[1], [0]]], [[[1], [0]]]⟩
    ⟨[5], [[some 1], [none]], [[1], [2]], [[[[1]], [[2]]]], [[[1], [2]]], [[1], [2]]⟩
    2 (by omega) rfl rfl rfl rfl rfl
  exact ⟨⟨by omega, rfl⟩, h.1.1,
    h.2.2.1 0 (by decide), h.2.2.2.2.2.2.2.1 0 (by decide)⟩

theorem sorted_getD_le (a : List ℚ) (hs : List.Sorted (· ≤ ·) a) (i j : ℕ)
    (d d' : ℚ) (hij : i ≤ j) (hj : j < a.length) : a.getD i d ≤ a.getD j d' := by
  have hi : i < a.length := lt_of_le_of_lt hij hj
  rw [List.getD_eq_getElem _ _ hi, List.getD_eq_getElem _ _ hj]
  exact hs.rel_get_of_le (a := ⟨i, hi⟩) (b := ⟨j, hj⟩) hij

theorem npQuantileSorted_mono (a : List ℚ) (hs : List.Sorted (· ≤ ·) a)
    (hne : a ≠ []) (q₁ q₂ : ℚ) (hq0 : 0 ≤ q₁) (hq12 : q₁ ≤ q₂) (hq1 : q₂ ≤ 1) :
    npQuantileSorted a q₁ ≤ npQuantileSorted a q₂ := by
  have hn : 1 ≤ a.length := List.length_pos.2 hne
  have hnn : (0 : ℚ) ≤ (a.length : ℚ) - 1 := by
    have h1 : (1 : ℚ) ≤ (a.length : ℚ) := by exact_mod_cast hn
    linarith
  unfold npQuantileSorted
  dsimp only
  set h₁ := q₁ * ((a.length : ℚ) - 1) with hdef₁
  set h₂ := q₂ * ((a.length : ℚ) - 1) with hdef₂
  have hh0 : 0 ≤ h₁ := mul_nonneg hq0 hnn
  have hh12 : h₁ ≤ h₂ := mul_le_mul_of_nonneg_right hq12 hnn
  have hh2up : h₂ ≤ (a.length : ℚ) - 1 := by
    calc h₂ ≤ 1 * ((a.length : ℚ) - 1) := mul_le_mul_of_nonneg_right hq1 hnn
    _ = (a.length : ℚ) - 1 := one_mul _
  have hh0' : 0 ≤ h₂ := le_trans hh0 hh12
  have hf₁0 : 0 ≤ ⌊h₁⌋ := Int.le_floor.2 (by exact_mod_cast hh0)
  have hf₂0 : 0 ≤ ⌊h₂⌋ := Int.le_floor.2 (by exact_mod_cast hh0')
  have hcast₁ : ((⌊h₁⌋.toNat : ℕ) : ℚ) = ((⌊h₁⌋ : ℤ) : ℚ) := by
    exact_mod_cast congrArg (fun z : ℤ => (z : ℚ)) (Int.toNat_of_nonneg hf₁0)
  have hcast₂ : ((⌊h₂⌋.toNat : ℕ) : ℚ) = ((⌊h₂⌋ : ℤ) : ℚ) := by
    exact_mod_cast congrArg (fun z : ℤ => (z : ℚ)) (Int.toNat_of_nonneg hf₂0)
  have hfup : ⌊h₂⌋ ≤ (a.length : ℤ) - 1 := by
    calc ⌊h₂⌋ ≤ ⌊((a.length : ℚ) - 1)⌋ := Int.floor_le_floor hh2up
    _ = (a.length : ℤ) - 1 := by
        rw [show ((a.length : ℚ) - 1) = (((a.length : ℤ) - 1 : ℤ) : ℚ) from by
          push_cast
          ring]
        exact Int.floor_intCast _
  have hi₂n : ⌊h₂⌋.toNat ≤ a.length - 1 := by omega
  have hi₁₂ : ⌊h₁⌋.toNat ≤ ⌊h₂⌋.toNat := by
    have := Int.floor_le_floor hh12
    omega
  have hγ₁0 : 0 ≤ h₁ - ((⌊h₁⌋ : ℤ) : ℚ) := by
    have := Int.floor_le h₁
    linarith
  have hγ₂0 : 0 ≤ h₂ - ((⌊h₂⌋ : ℤ) : ℚ) := by
    have := Int.floor_le h₂
    linarith
  have hγ₁1 : h₁ - ((⌊h₁⌋ : ℤ) : ℚ) ≤ 1 := by
    have := Int.lt_floor_add_one h₁
    push_cast at this ⊢
    linarith
  by_cases hii : ⌊h₁⌋.toNat = ⌊h₂⌋.toNat
  · have hff : ⌊h₁⌋ = ⌊h₂⌋ := by omega
    rw [hii, hff]
    have hhi : a.getD (⌊h₂⌋.toNat) 0 ≤
        a.getD (⌊h₂⌋.toNat + 1) (a.getD (⌊h₂⌋.toNat) 0) := by
      by_cases hin2 : ⌊h₂⌋.toNat + 1 < a.length
      · exact sorted_getD_le a hs _ _ _ _ (Nat.le_succ _) hin2
      · have hdflt : a.getD (⌊h₂⌋.toNat + 1) (a.getD (⌊h₂⌋.toNat) 0) =
            a.getD (⌊h₂⌋.toNat) 0 := List.getD_eq_default _ _ (by omega)
        rw [hdflt]
    have hsub : 0 ≤ a.getD (⌊h₂⌋.toNat + 1) (a.getD (⌊h₂⌋.toNat) 0) -
        a.getD (⌊h₂⌋.toNat) 0 := by linarith
    have hγle : h₁ - ((⌊h₂⌋ : ℤ) : ℚ) ≤ h₂ - ((⌊h₂⌋ : ℤ) : ℚ) := by linarith
    nlinarith [mul_le_mul_of_nonneg_right hγle hsub]
  · have hlt : ⌊h₁⌋.toNat < ⌊h₂⌋.toNat := by omega
    have h1n : ⌊h₁⌋.toNat + 1 < a.length := by omega
    have hi₁n : ⌊h₁⌋.toNat < a.length := by omega
    have hi₂n' : ⌊h₂⌋.toNat < a.length := by omega
    have hlo₁hi₁ : a.getD (⌊h₁⌋.toNat) 0 ≤
        a.getD (⌊h₁⌋.toNat + 1) (a.getD (⌊h₁⌋.toNat) 0) :=
      sorted_getD_le a hs _ _ _ _ (Nat.le_succ _) h1n
    have hv₁hi : a.getD (⌊h₁⌋.toNat) 0 +
        (h₁ - ((⌊h₁⌋ : ℤ) : ℚ)) *
          (a.getD (⌊h₁⌋.toNat + 1) (a.getD (⌊h₁⌋.toNat) 0) - a.getD (⌊h₁⌋.toNat) 0) ≤
        a.getD (⌊h₁⌋.toNat + 1) (a.getD (⌊h₁⌋.toNat) 0) := by
      nlinarith
    have hmid : a.getD (⌊h₁⌋.toNat + 1) (a.getD (⌊h₁⌋.toNat) 0) ≤
        a.getD (⌊h₂⌋.toNat) 0 :=
      sorted_getD_le a hs _ _ _ _ (by omega) hi₂n'
    have hhi₂ : a.getD (⌊h₂⌋.toNat) 0 ≤
        a.getD (⌊h₂⌋.toNat + 1) (a.getD (⌊h₂⌋.toNat) 0) := by
      by_cases hin2 : ⌊h₂⌋.toNat + 1 < a.length
      · exact sorted_getD_le a hs _ _ _ _ (Nat.le_succ _) hin2
      · have hdflt : a.getD (⌊h₂⌋.toNat + 1) (a.getD (⌊h₂⌋.toNat) 0) =
            a.getD (⌊h₂⌋.toNat) 0 := List.getD_eq_default _ _ (by omega)
        rw [hdflt]
    have hlov₂ : a.getD (⌊h₂⌋.toNat) 0 ≤
        a.getD (⌊h₂⌋.toNat) 0 +
          (h₂ - ((⌊h₂⌋ : ℤ) : ℚ)) *
            (a.getD (⌊h₂⌋.toNat + 1) (a.getD (⌊h₂⌋.toNat) 0) - a.getD (⌊h₂⌋.toNat) 0) := by
      nlinarith
    linarith

theorem gtThresholds_length (entries : List (ℕ × ℚ)) (Q : ℕ) :
    (gtThresholds entries Q).length = Q - 1 := by
  unfold gtThresholds quantilePoints
  rw [List.length_map, List.length_map, List.length_range]

theorem sortedInner_sorted (entries : List (ℕ × ℚ)) :
    List.Sorted (· ≤ ·) ((sortedErrors entries).insertionSort (· ≤ ·)) :=
  List.sorted_insertionSort _ _

theorem sortedInner_length (entries : List (ℕ × ℚ)) :
    ((sortedErrors entries).insertionSort (· ≤ ·)).length = entries.length := by
  rw [List.length_insertionSort]
  unfold sortedErrors
  rw [List.length_insertionSort, List.length_map]

theorem gtThresholds_getD (entries : List (ℕ × ℚ)) (Q k : ℕ) (hk : k < Q - 1) :
    (gtThresholds entries Q).getD k 0 =
      npQuantile (sortedErrors entries) (((k : ℚ) + 1) / (Q : ℚ)) := by
  unfold gtThresholds quantilePoints
  rw [List.getD_eq_getElem _ _
    (by simp only [List.length_map, List.length_range]; exact hk),
    List.getElem_map, List.getElem_map, List.getElem_range]

theorem thresholds_first_le_last (entries : List (ℕ × ℚ)) (Q : ℕ)
    (hne : entries ≠ []) (hQ : 3 ≤ Q) :
    (gtThresholds entries Q).getD 0 0 ≤ (gtThresholds entries Q).getD (Q - 2) 0 := by
  rw [gtThresholds_getD entries Q 0 (by omega), gtThresholds_getD entries Q (Q - 2) (by omega)]
  unfold npQuantile
  have hQQ : (0 : ℚ) < (Q : ℚ) := by
    have : 0 < Q := by omega
    exact_mod_cast this
  have hcast : ((Q - 2 : ℕ) : ℚ) = (Q : ℚ) - 2 := by
    have h2 : 2 ≤ Q := by omega
    push_cast [h2]
    ring
  apply npQuantileSorted_mono _ (sortedInner_sorted entries)
  · intro hcon
    have := sortedInner_length entries
    rw [hcon] at this
    simp at this
    exact hne (List.length_eq_zero.1 this.symm)
  · positivity
  · rw [hcast]
    rw [div_le_div_iff hQQ hQQ]
    have h3 : (3 : ℚ) ≤ (Q : ℚ) := by exact_mod_cast hQ
    push_cast
    nlinarith [mul_nonneg (show (0 : ℚ) ≤ (Q : ℚ) - 2 by linarith) (le_of_lt hQQ)]
  · rw [hcast, div_le_one hQQ]
    have h3 : (3 : ℚ) ≤ (Q : ℚ) := by exact_mod_cast hQ
    linarith

theorem mem_filter_map_fst (entries : List (ℕ × ℚ)) (c : ℚ → Bool) (x : ℕ) :
    x ∈ (entries.filter (fun p => c p.2)).map Prod.fst ↔
      ∃ e, (x, e) ∈ entries ∧ c e = true := by
  rw [List.mem_map]
  constructor
  · rintro ⟨⟨a, b⟩, hm, rfl⟩
    rw [List.mem_filter] at hm
    exact ⟨b, hm.1, hm.2⟩
  · rintro ⟨e, hm, hc⟩
    exact ⟨(x, e), List.mem_filter.2 ⟨hm, hc⟩, rfl⟩

theorem snd_unique_of_nodup (entries : List (ℕ × ℚ))
    (hnd : (entries.map Prod.fst).Nodup) (x : ℕ) (e e' : ℚ)
    (h1 : (x, e) ∈ entries) (h2 : (x, e') ∈ entries) : e = e' := by
  induction entries with
  | nil => cases h1
  | cons p ps ih =>
    rw [List.map_cons, List.nodup_cons] at hnd
    rcases List.mem_cons.1 h1 with rfl | h1t
    · rcases List.mem_cons.1 h2 with heq | h2t
      · injection heq with hx he
        exact he.symm
      · exact absurd (List.mem_map.2 ⟨(x, e'), h2t, rfl⟩) hnd.1
    · rcases List.mem_cons.1 h2 with rfl | h2t
      · exact absurd (List.mem_map.2 ⟨(x, e), h1t, rfl⟩) hnd.1
      · exact ih hnd.2 h1t h2t

theorem keyGroupsOf_getD_zero (ts : List ℚ) (entries : List (ℕ × ℚ)) :
    (keyGroupsOf ts entries).getD 0 [] =
      (entries.filter (fun p => decide (p.2 ≤ ts.getD 0 0))).map Prod.fst := by
  unfold keyGroupsOf
  rw [List.getD_eq_getElem _ _ (by simp), List.getElem_map, List.getElem_range]
  congr 1

theorem keyGroupsOf_getD_last (ts : List ℚ) (entries : List (ℕ × ℚ))
    (hts : ts ≠ []) :
    (keyGroupsOf ts entries).getD ts.length [] =
      (entries.filter (fun p => decide (ts.getD (ts.length - 1) 0 < p.2))).map Prod.fst := by
  unfold keyGroupsOf
  rw [List.getD_eq_getElem _ _ (by simp), List.getElem_map, List.getElem_range]
  congr 1
  apply List.filter_congr
  intro p _
  unfold groupCond
  rw [if_neg (by simpa using List.length_pos.2 hts |>.ne'), if_neg (lt_irrefl _)]

theorem keyGroupsOf_mem_flatten (ts : List ℚ) (entries : List (ℕ × ℚ)) (x : ℕ) :
    x ∈ (keyGroupsOf ts entries).flatten ↔
      ∃ q, q < ts.length + 1 ∧ ∃ e, (x, e) ∈ entries ∧ groupCond ts q e = true := by
  unfold keyGroupsOf
  rw [List.mem_flatten]
  constructor
  · rintro ⟨g, hg, hx⟩
    obtain ⟨q, hq, rfl⟩ := List.mem_map.1 hg
    obtain ⟨e, he, hc⟩ := (mem_filter_map_fst entries _ x).1 hx
    exact ⟨q, List.mem_range.1 hq, e, he, hc⟩
  · rintro ⟨q, hq, e, he, hc⟩
    exact ⟨_, List.mem_map_of_mem _ (List.mem_range.2 hq),
      (mem_filter_map_fst entries _ x).2 ⟨e, he, hc⟩⟩

/-- C5: for every non-empty true-error map with unique ids and every Q ≥ 3,
the ground-truth quantile partition with `combine_middle_bins` (as performed
inside `bin_wise_jaccard`) keeps only the first and last of the Q-1 quantile
thresholds and yields exactly 3 groups, pairwise disjoint, whose union is the
full id set, and whose first and last groups equal the first and last groups
of the non-combined Q-way partition. -/
theorem C5_combined_partition (entries : List (ℕ × ℚ)) (Q : ℕ)
    (hne : entries ≠ []) (hQ : 3 ≤ Q) (hnd : (entries.map Prod.fst).Nodup) :
    gtGroupsUsed entries Q true =
      Except.ok (keyGroupsOf (combinedThresholdPair entries Q) entries) ∧
    (keyGroupsOf (combinedThresholdPair entries Q) entries).length = 3 ∧
    List.Pairwise (fun g g' => ∀ x, x ∈ g → x ∈ g' → False)
      (keyGroupsOf (combinedThresholdPair entries Q) entries) ∧
    (∀ x, x ∈ (keyGroupsOf (combinedThresholdPair entries Q) entries).flatten ↔
      x ∈ entries.map Prod.fst) ∧
    (keyGroupsOf (combinedThresholdPair entries Q) entries).getD 0 [] =
      (keyGroupsOf (gtThresholds entries Q) entries).getD 0 [] ∧
    (keyGroupsOf (combinedThresholdPair entries Q) entries).getD 2 [] =
      (keyGroupsOf (gtThresholds entries Q) entries).getD (Q - 1) [] := by
  have hlen : (gtThresholds entries Q).length = Q - 1 := gtThresholds_length entries Q
  have htsne : gtThresholds entries Q ≠ [] := by
    intro hcon
    rw [hcon] at hlen
    simp at hlen
    omega
  have hpair : combinedThresholdPair entries Q =
      [(gtThresholds entries Q).getD 0 0, (gtThresholds entries Q).getD (Q - 2) 0] := rfl
  have ht01 : (gtThresholds entries Q).getD 0 0 ≤ (gtThresholds entries Q).getD (Q - 2) 0 :=
    thresholds_first_le_last entries Q hne hQ
  have hc0 : ∀ e : ℚ, groupCond (combinedThresholdPair entries Q) 0 e = true ↔
      e ≤ (gtThresholds entries Q).getD 0 0 := by
    intro e
    rw [hpair]
    unfold groupCond
    simp
  have hc1 : ∀ e : ℚ, groupCond (combinedThresholdPair entries Q) 1 e = true ↔
      (gtThresholds entries Q).getD 0 0 < e ∧ e ≤ (gtThresholds entries Q).getD (Q - 2) 0 := by
    intro e
    rw [hpair]
    unfold groupCond
    simp
  have hc2 : ∀ e : ℚ, groupCond (combinedThresholdPair entries Q) 2 e = true ↔
      (gtThresholds entries Q).getD (Q - 2) 0 < e := by
    intro e
    rw [hpair]
    unfold groupCond
    simp
  have hexp : keyGroupsOf (combinedThresholdPair entries Q) entries =
      [(entries.filter (fun p => groupCond (combinedThresholdPair entries Q) 0 p.2)).map Prod.fst,
       (entries.filter (fun p => groupCond (combinedThresholdPair entries Q) 1 p.2)).map Prod.fst,
       (entries.filter (fun p => groupCond (combinedThresholdPair entries Q) 2 p.2)).map Prod.fst] := by
    rw [hpair]
    rfl
  refine ⟨?_, ?_, ?_, ?_, ?_, ?_⟩
  · unfold gtGroupsUsed
    have hH : (gtThresholds entries Q).head? =
        some ((gtThresholds entries Q).getD 0 0) := by
      have h0 : 0 < (gtThresholds entries Q).length := by omega
      rw [List.head?_eq_getElem?, List.getElem?_eq_getElem h0,
        List.getD_eq_getElem _ _ h0]
    have hidx : (gtThresholds entries Q).length - 1 = Q - 2 := by omega
    have hL : (gtThresholds entries Q).getLast? =
        some ((gtThresholds entries Q).getD (Q - 2) 0) := by
      rw [List.getLast?_eq_getElem?, hidx,
        List.getElem?_eq_getElem (by omega),
        List.getD_eq_getElem _ _ (by omega)]
    have hcomb : combineThresholds (gtThresholds entries Q) =
        Except.ok (combinedThresholdPair entries Q) := by
      unfold combineThresholds
      rw [hH, hL, hpair]
    rw [hcomb]
    rfl
  · rw [hexp]
    rfl
  · rw [hexp]
    have huniq := snd_unique_of_nodup entries hnd
    refine List.Pairwise.cons ?_ (List.Pairwise.cons ?_ (List.Pairwise.cons ?_ List.Pairwise.nil))
    · intro g hg x hx0 hxg
      have hx0' := (mem_filter_map_fst entries _ x).1 hx0
      obtain ⟨e, he, hce⟩ := hx0'
      rw [hc0 e] at hce
      rcases List.mem_cons.1 hg with rfl | hg2
      · obtain ⟨e', he', hce'⟩ := (mem_filter_map_fst entries _ x).1 hxg
        rw [hc1 e'] at hce'
        have := huniq x e e' he he'
        subst this
        linarith [hce'.1]
      · rcases List.mem_cons.1 hg2 with rfl | hg3
        · obtain ⟨e', he', hce'⟩ := (mem_filter_map_fst entries _ x).1 hxg
          rw [hc2 e'] at hce'
          have := huniq x e e' he he'
          subst this
          linarith
        · cases hg3
    · intro g hg x hx1 hxg
      obtain ⟨e, he, hce⟩ := (mem_filter_map_fst entries _ x).1 hx1
      rw [hc1 e] at hce
      rcases List.mem_cons.1 hg with rfl | hg2
      · obtain ⟨e', he', hce'⟩ := (mem_filter_map_fst entries _ x).1 hxg
        rw [hc2 e'] at hce'
        have := huniq x e e' he he'
        subst this
        linarith [hce.2]
      · cases hg2
    · intro g hg
      cases hg
  · intro x
    rw [keyGroupsOf_mem_flatten]
    constructor
    · rintro ⟨q, hq, e, he, hc⟩
      exact List.mem_map.2 ⟨(x, e), he, rfl⟩
    · intro hx
      obtain ⟨p, hp, rfl⟩ := List.mem_map.1 hx
      have hp' : (p.1, p.2) ∈ entries := by
        rw [Prod.mk.eta]
        exact hp
      have hlen2 : (combinedThresholdPair entries Q).length = 2 := by
        rw [hpair]
        rfl
      rcases le_or_lt p.2 ((gtThresholds entries Q).getD 0 0) with h | h
      · exact ⟨0, by omega, p.2, hp', (hc0 _).2 h⟩
      · rcases le_or_lt p.2 ((gtThresholds entries Q).getD (Q - 2) 0) with h2 | h2
        · exact ⟨1, by omega, p.2, hp', (hc1 _).2 ⟨h, h2⟩⟩
        · exact ⟨2, by omega, p.2, hp', (hc2 _).2 h2⟩
  · rw [keyGroupsOf_getD_zero, keyGroupsOf_getD_zero, hpair]
    rfl
  · have hc2fun : (fun p : ℕ × ℚ => groupCond (combinedThresholdPair entries Q) 2 p.2) =
        (fun p : ℕ × ℚ => decide ((gtThresholds entries Q).getD (Q - 2) 0 < p.2)) := by
      funext p
      rw [hpair]
      unfold groupCond
      norm_num
    have hcQfun : (fun p : ℕ × ℚ => groupCond (gtThresholds entries Q) (Q - 1) p.2) =
        (fun p : ℕ × ℚ => decide ((gtThresholds entries Q).getD (Q - 2) 0 < p.2)) := by
      funext p
      unfold groupCond
      rw [if_neg (by omega), if_neg (by omega),
        show Q - 1 - 1 = Q - 2 from by omega]
    have hL2 : (keyGroupsOf (combinedThresholdPair entries Q) entries).getD 2 [] =
        (entries.filter (fun p => groupCond (combinedThresholdPair entries Q) 2 p.2)).map
          Prod.fst := by
      rw [hexp]
      rfl
    have hRQ : (keyGroupsOf (gtThresholds entries Q) entries).getD (Q - 1) [] =
        (entries.filter (fun p => groupCond (gtThresholds entries Q) (Q - 1) p.2)).map
          Prod.fst := by
      unfold keyGroupsOf
      rw [List.getD_eq_getElem _ _
        (by simp only [List.length_map, List.length_range]; omega),
        List.getElem_map, List.getElem_range]
    rw [hL2, hRQ, hc2fun, hcQfun]

/-- Witness for C5 at a concrete input: three samples with errors 10, 20, 30
and Q = 3; the combined partition is the 3-way split at the two thresholds. -/
theorem C5_witness :
    (([(1, 10), (2, 20), (3, 30)] : List (ℕ × ℚ)) ≠ [] ∧ 3 ≤ 3 ∧
      (([(1, 10), (2, 20), (3, 30)] : List (ℕ × ℚ)).map Prod.fst).Nodup) ∧
    gtGroupsUsed [(1, 10), (2, 20), (3, 30)] 3 true =
      Except.ok (keyGroupsOf (combinedThresholdPair [(1, 10), (2, 20), (3, 30)] 3)
        [(1, 10), (2, 20), (3, 30)]) ∧
    (keyGroupsOf (combinedThresholdPair [(1, 10), (2, 20), (3, 30)] 3)
      [(1, 10), (2, 20), (3, 30)]).length = 3 ∧
    (∀ x, x ∈ (keyGroupsOf (combinedThresholdPair [(1, 10), (2, 20), (3, 30)] 3)
        [(1, 10), (2, 20), (3, 30)]).flatten ↔
      x ∈ ([(1, 10), (2, 20), (3, 30)] : List (ℕ × ℚ)).map Prod.fst) := by
  have h := C5_combined_partition [(1, 10), (2, 20), (3, 30)] 3 (by simp)
    (le_refl 3) (by simp)
  exact ⟨⟨by simp, le_refl 3, by simp⟩, h.1, h.2.1, h.2.2.2.1⟩

/-! ## C10: `combine_middle_bins` forces three bins in every evaluator -/

theorem forall_mem_mapIdx {α β : Type} (P : β → Prop) :
    ∀ (l : List α) (f : ℕ → α → β),
      (∀ i a, i < l.length → a ∈ l → P (f i a)) → ∀ x ∈ l.mapIdx f, P x := by
  intro l
  induction l with
  | nil =>
    intro f _ x hx
    simp [List.mapIdx_nil] at hx
  | cons a l ih =>
    intro f h x hx
    rw [List.mapIdx_cons] at hx
    rcases List.mem_cons.1 hx with h0 | h1
    · rw [h0]
      exact h 0 a (by simp) (by simp)
    · exact ih (fun i b => f (i + 1) b)
        (fun i b hi hb => h (i + 1) b (by simp only [List.length_cons]; omega)
          (List.mem_cons_of_mem a hb)) x h1

theorem length_appendEach {α : Type} (acc : List (List α)) (r : List α) :
    (appendEach acc r).length = acc.length := by
  unfold appendEach
  rw [List.length_mapIdx]

theorem length_concatEach {α : Type} (acc : List (List α)) (r : List (List α)) :
    (concatEach acc r).length = acc.length := by
  unfold concatEach
  rw [List.length_mapIdx]

theorem length_concatNested {α : Type} (acc : List (List (List α)))
    (r : List (List (List α))) : (concatNested acc r).length = acc.length := by
  unfold concatNested
  rw [List.length_mapIdx]

theorem mem_concatNested_length {α : Type} {nb : ℕ} (acc : List (List (List α)))
    (r : List (List (List α))) (h : ∀ x ∈ acc, x.length = nb) :
    ∀ x ∈ concatNested acc r, x.length = nb := by
  unfold concatNested
  exact forall_mem_mapIdx (fun x : List (List α) => x.length = nb) acc _
    (fun t a _ ha => by dsimp only; rw [length_concatEach]; exact h a ha)

theorem length_errSepAllUpd (acc : List (List (List ℚ)))
    (r : List (List (List (List ℚ)))) :
    (errSepAllUpd acc r).length = acc.length := by
  unfold errSepAllUpd
  rw [List.length_mapIdx]

theorem mem_errSepAllUpd_length {nb : ℕ} (acc : List (List (List ℚ)))
    (r : List (List (List (List ℚ)))) (h : ∀ x ∈ acc, x.length = nb) :
    ∀ x ∈ errSepAllUpd acc r, x.length = nb := by
  unfold errSepAllUpd
  exact forall_mem_mapIdx (fun x : List (List ℚ) => x.length = nb) acc _
    (fun t a _ ha => by dsimp only; rw [List.length_mapIdx]; exact h a ha)

theorem allValuesLen3_updAssoc {α : Type} {d : ResDict (List α)} (k : String)
    {v : List α} (hd : allValuesLen3 d) (hv : v.length = 3) :
    allValuesLen3 (updAssoc d k v) := by
  unfold updAssoc allValuesLen3
  by_cases hany : (d.any fun p => p.1 == k) = true
  · rw [if_pos hany]
    intro p hp
    rcases List.mem_map.1 hp with ⟨q, hq, hpq⟩
    rw [← hpq]
    split
    · exact hv
    · exact hd q hq
  · rw [if_neg hany]
    intro p hp
    rcases List.mem_append.1 hp with h1 | h1
    · exact hd p h1
    · rw [List.mem_singleton.1 h1]
      exact hv

theorem boundAccInv_init (nb nt : ℕ) : boundAccInv nb nt (boundInitAcc nb nt) := by
  unfold boundAccInv boundInitAcc
  refine ⟨by simp, by simp, by simp, ?_, by simp, ?_⟩ <;>
    exact fun x hx => by rw [List.eq_of_mem_replicate hx]; simp

theorem errorAccInv_init (nb nt : ℕ) : errorAccInv nb nt (errorInitAcc nb nt) := by
  unfold errorAccInv errorInitAcc
  refine ⟨by simp, by simp, by simp, ?_, by simp, ?_, by simp⟩ <;>
    exact fun x hx => by rw [List.eq_of_mem_replicate hx]; simp

theorem jaccAccInv_init (nb nt : ℕ) : jaccAccInv nb nt (jaccInitAcc nb nt) := by
  unfold jaccAccInv jaccInitAcc
  refine ⟨by simp, by simp, by simp, by simp, by simp, by simp,
    by simp, ?_, by simp, ?_⟩ <;>
    exact fun x hx => by rw [List.eq_of_mem_replicate hx]; simp

theorem boundAccInv_accumulate {nb nt : ℕ} {acc : BoundAcc} (r : BoundFoldResult)
    (h : boundAccInv nb nt acc) : boundAccInv nb nt (boundAccumulate acc r) := by
  obtain ⟨h1, h2, h3, h4, h5, h6⟩ := h
  unfold boundAccInv boundAccumulate
  dsimp only
  exact ⟨by rw [length_appendEach]; exact h1,
    by rw [length_concatEach]; exact h2,
    by rw [length_concatNested]; exact h3,
    mem_concatNested_length _ _ h4,
    by rw [length_concatNested]; exact h5,
    mem_concatNested_length _ _ h6⟩

theorem errorAccInv_accumulate {nb nt : ℕ} {acc : ErrorAcc} (r : ErrorFoldResult)
    (h : errorAccInv nb nt acc) : errorAccInv nb nt (errorAccumulate acc r) := by
  obtain ⟨h1, h2, h3, h4, h5, h6, h7⟩ := h
  unfold errorAccInv errorAccumulate
  dsimp only
  exact ⟨by rw [length_appendEach]; exact h1,
    by rw [length_concatEach]; exact h2,
    by rw [length_concatNested]; exact h3,
    mem_concatNested_length _ _ h4,
    by rw [length_errSepAllUpd]; exact h5,
    mem_errSepAllUpd_length _ _ h6,
    by rw [List.length_mapIdx]; exact h7⟩

theorem jaccAccInv_accumulate {nb nt : ℕ} {acc : JaccAcc} (r : JaccFoldResult)
    (h : jaccAccInv nb nt acc) : jaccAccInv nb nt (jaccAccumulate acc r) := by
  obtain ⟨h1, h2, h3, h4, h5, h6, h7, h8, h9, h10⟩ := h
  unfold jaccAccInv jaccAccumulate
  dsimp only
  exact ⟨by rw [length_appendEach]; exact h1,
    by rw [length_concatEach]; exact h2,
    by rw [length_appendEach]; exact h3,
    by rw [length_concatEach]; exact h4,
    by rw [length_appendEach]; exact h5,
    by rw [length_concatEach]; exact h6,
    by rw [length_concatNested]; exact h7,
    mem_concatNested_length _ _ h8,
    by rw [length_concatNested]; exact h9,
    mem_concatNested_length _ _ h10⟩

theorem boundFoldLoop_inv {nb nt : ℕ} (md : ModelData) (utype : String)
    (eb : Option EstBounds) (model : Option String) (targets : List ℤ) :
    ∀ (fs : List ℕ) (acc acc' : BoundAcc), boundAccInv nb nt acc →
      (boundFoldLoop md utype eb model targets nb fs acc).2 = Except.ok acc' →
      boundAccInv nb nt acc' := by
  intro fs
  induction fs with
  | nil =>
    intro acc acc' hinv heq
    simp only [boundFoldLoop] at heq
    rw [← Except.ok.inj heq]
    exact hinv
  | cons f fs ih =>
    intro acc acc' hinv heq
    simp only [boundFoldLoop] at heq
    rcases hstep : boundStep md utype eb model targets nb f with ⟨tr, res⟩
    rw [hstep] at heq
    cases res with
    | error e => simp at heq
    | ok r =>
      dsimp only at heq
      exact ih (boundAccumulate acc r) acc' (boundAccInv_accumulate r hinv) heq

theorem errorFoldLoop_inv {nb nt : ℕ} (md : ModelData) (utype : String)
    (targets : List ℤ) (esf : ℚ) :
    ∀ (fs : List ℕ) (acc acc' : ErrorAcc), errorAccInv nb nt acc →
      errorFoldLoop md utype targets nb esf fs acc = Except.ok acc' →
      errorAccInv nb nt acc' := by
  intro fs
  induction fs with
  | nil =>
    intro acc acc' hinv heq
    simp only [errorFoldLoop] at heq
    rw [← Except.ok.inj heq]
    exact hinv
  | cons f fs ih =>
    intro acc acc' hinv heq
    simp only [errorFoldLoop] at heq
    rcases hex : extractFoldData md utype f with e | rows
    · rw [hex] at heq
      simp at heq
    · rw [hex] at heq
      dsimp only at heq
      rcases hbw : bin_wise_errors rows nb targets esf with e | r
      · rw [hbw] at heq
        simp at heq
      · rw [hbw] at heq
        dsimp only at heq
        exact ih (errorAccumulate acc r) acc' (errorAccInv_accumulate r hinv) heq

theorem jaccFoldLoop_inv {nb nt : ℕ} (md : ModelData) (utype : String)
    (targets : List ℤ) (onb : ℕ) (cmb : Bool) :
    ∀ (fs : List ℕ) (acc acc' : JaccAcc), jaccAccInv nb nt acc →
      jaccFoldLoop md utype targets nb onb cmb fs acc = Except.ok acc' →
      jaccAccInv nb nt acc' := by
  intro fs
  induction fs with
  | nil =>
    intro acc acc' hinv heq
    simp only [jaccFoldLoop] at heq
    rw [← Except.ok.inj heq]
    exact hinv
  | cons f fs ih =>
    intro acc acc' hinv heq
    simp only [jaccFoldLoop] at heq
    rcases hex : extractFoldData md utype f with e | rows
    · rw [hex] at heq
      simp at heq
    · rw [hex] at heq
      dsimp only at heq
      rcases hps : jaccProcessSingleFold rows targets nb onb cmb with e | r
      · rw [hps] at heq
        simp at heq
      · rw [hps] at heq
        dsimp only at heq
        exact ih (jaccAccumulate acc r) acc' (jaccAccInv_accumulate r hinv) heq

theorem boundResInv_init (nt : ℕ) : boundResInv nt (boundInitResults nt) := by
  unfold boundResInv boundInitResults allDictsLen3 allValuesLen3
  refine ⟨?_, ?_, by simp, ?_, by simp, ?_⟩
  · intro p hp
    simp at hp
  · intro p hp
    simp at hp
  · intro d hd p hp
    rw [List.eq_of_mem_replicate hd] at hp
    simp at hp
  · intro d hd p hp
    rw [List.eq_of_mem_replicate hd] at hp
    simp at hp

theorem errorResInv_init (nt : ℕ) : errorResInv nt (errorInitResults nt) := by
  unfold errorResInv errorInitResults allDictsLen3 allValuesLen3
  refine ⟨?_, ?_, ?_, by simp, ?_, by simp, ?_⟩
  · intro p hp
    simp at hp
  · intro p hp
    simp at hp
  · intro p hp
    simp at hp
  · intro d hd p hp
    rw [List.eq_of_mem_replicate hd] at hp
    simp at hp
  · intro d hd p hp
    rw [List.eq_of_mem_replicate hd] at hp
    simp at hp

theorem jaccResInv_init (nt : ℕ) : jaccResInv nt (jaccInitResults nt) := by
  unfold jaccResInv jaccInitResults allDictsLen3 allValuesLen3
  refine ⟨?_, ?_, ?_, ?_, ?_, ?_, by simp, ?_, by simp, ?_⟩
  · intro p hp
    simp at hp
  · intro p hp
    simp at hp
  · intro p hp
    simp at hp
  · intro p hp
    simp at hp
  · intro p hp
    simp at hp
  · intro p hp
    simp at hp
  · intro d hd p hp
    rw [List.eq_of_mem_replicate hd] at hp
    simp at hp
  · intro d hd p hp
    rw [List.eq_of_mem_replicate hd] at hp
    simp at hp

theorem boundResInv_aggregate {nt : ℕ} {res : BoundResults} (model utype : String)
    {acc : BoundAcc} (hres : boundResInv nt res) (hacc : boundAccInv 3 nt acc) :
    boundResInv nt (boundAggregate res model utype acc) := by
  obtain ⟨r1, r2, r3, r4, r5, r6⟩ := hres
  obtain ⟨a1, a2, a3, a4, a5, a6⟩ := hacc
  unfold boundResInv boundAggregate
  dsimp only
  refine ⟨allValuesLen3_updAssoc _ r1 (by rw [List.length_reverse]; exact a1),
    allValuesLen3_updAssoc _ r2 (by rw [List.length_reverse]; exact a2),
    by rw [List.length_mapIdx]; exact r3, ?_,
    by rw [List.length_mapIdx]; exact r5, ?_⟩
  · exact forall_mem_mapIdx allValuesLen3 res.concatSepFoldwise _
      (fun t d ht hd => allValuesLen3_updAssoc _ (r4 d hd) (by
        have hlt : t < acc.concatSepFoldwise.length := by omega
        rw [List.getD_eq_getElem acc.concatSepFoldwise [] hlt]
        exact a4 _ (List.getElem_mem _)))
  · exact forall_mem_mapIdx allValuesLen3 res.concatSepAll _
      (fun t d ht hd => allValuesLen3_updAssoc _ (r6 d hd) (by
        have hlt : t < acc.concatSepAll.length := by omega
        rw [List.getD_eq_getElem acc.concatSepAll [] hlt]
        exact a6 _ (List.getElem_mem _)))

theorem errorResInv_aggregate {nt : ℕ} {res : ErrorResults} (model utype : String)
    {acc : ErrorAcc} (hres : errorResInv nt res) (hacc : errorAccInv 3 nt acc) :
    errorResInv nt (errorAggregate res model utype acc) := by
  obtain ⟨r1, r2, r3, r4, r5, r6, r7⟩ := hres
  obtain ⟨a1, a2, a3, a4, a5, a6, a7⟩ := hacc
  unfold errorResInv errorAggregate
  dsimp only
  refine ⟨allValuesLen3_updAssoc _ r1 (by rw [List.length_reverse]; exact a1),
    allValuesLen3_updAssoc _ r2 (by rw [List.length_reverse]; exact a2),
    allValuesLen3_updAssoc _ r3 (by rw [List.length_reverse]; exact a7),
    by rw [List.length_mapIdx]; exact r4, ?_,
    by rw [List.length_mapIdx]; exact r6, ?_⟩
  · exact forall_mem_mapIdx allValuesLen3 res.concatSepFoldwise _
      (fun t d ht hd => allValuesLen3_updAssoc _ (r5 d hd) (by
        have hlt : t < acc.concatSepFoldwise.length := by omega
        rw [List.length_reverse, List.getD_eq_getElem acc.concatSepFoldwise [] hlt]
        exact a4 _ (List.getElem_mem _)))
  · exact forall_mem_mapIdx allValuesLen3 res.concatSepAll _
      (fun t d ht hd => allValuesLen3_updAssoc _ (r7 d hd) (by
        have hlt : t < acc.concatSepAll.length := by omega
        rw [List.length_reverse, List.getD_eq_getElem acc.concatSepAll [] hlt]
        exact a6 _ (List.getElem_mem _)))

theorem jaccResInv_aggregate {nt : ℕ} {res : JaccResults} (model utype : String)
    {acc : JaccAcc} (hres : jaccResInv nt res) (hacc : jaccAccInv 3 nt acc) :
    jaccResInv nt (jaccAggregate res model utype acc) := by
  obtain ⟨r1, r2, r3, r4, r5, r6, r7, r8, r9, r10⟩ := hres
  obtain ⟨a1, a2, a3, a4, a5, a6, a7, a8, a9, a10⟩ := hacc
  unfold jaccResInv jaccAggregate
  dsimp only
  refine ⟨allValuesLen3_updAssoc _ r1 a1,
    allValuesLen3_updAssoc _ r2 a2,
    allValuesLen3_updAssoc _ r3 a3,
    allValuesLen3_updAssoc _ r4 a4,
    allValuesLen3_updAssoc _ r5 a5,
    allValuesLen3_updAssoc _ r6 a6,
    by rw [List.length_mapIdx]; exact r7, ?_,
    by rw [List.length_mapIdx]; exact r9, ?_⟩
  · exact forall_mem_mapIdx allValuesLen3 res.concatSepFoldwise _
      (fun t d ht hd => allValuesLen3_updAssoc _ (r8 d hd) (by
        have hlt : t < acc.concatSepFoldwise.length := by omega
        rw [List.getD_eq_getElem acc.concatSepFoldwise [] hlt]
        exact a8 _ (List.getElem_mem _)))
  · exact forall_mem_mapIdx allValuesLen3 res.concatSepAll _
      (fun t d ht hd => allValuesLen3_updAssoc _ (r10 d hd) (by
        have hlt : t < acc.concatSepAll.length := by omega
        rw [List.getD_eq_getElem acc.concatSepAll [] hlt]
        exact a10 _ (List.getElem_mem _)))

theorem boundPairLoop_inv (md : ModelData) (model : String) (eb : Option EstBounds)
    (targets : List ℤ) (numFolds : ℕ) :
    ∀ (ps : List (List String)) (res res' : BoundResults),
      boundResInv targets.length res →
      boundPairLoop md model eb targets 3 numFolds ps res = Except.ok res' →
      boundResInv targets.length res' := by
  intro ps
  induction ps with
  | nil =>
    intro res res' hres heq
    simp only [boundPairLoop] at heq
    rw [← Except.ok.inj heq]
    exact hres
  | cons pair ps ih =>
    intro res res' hres heq
    simp only [boundPairLoop] at heq
    rcases hidx : pyIdx pair 0 with e | utype
    · rw [hidx] at heq
      simp at heq
    · rw [hidx] at heq
      dsimp only at heq
      rcases hpf : (boundProcessFolds md utype eb (some model) targets 3 numFolds).2
        with e | acc
      · rw [hpf] at heq
        simp at heq
      · rw [hpf] at heq
        dsimp only at heq
        have hacc : boundAccInv 3 targets.length acc := by
          unfold boundProcessFolds at hpf
          exact boundFoldLoop_inv md utype eb (some model) targets
            (List.range numFolds) (boundInitAcc 3 targets.length) acc
            (boundAccInv_init 3 targets.length) hpf
        exact ih (boundAggregate res model utype acc) res'
          (boundResInv_aggregate model utype hres hacc) heq

theorem errorPairLoop_inv (md : ModelData) (model : String) (targets : List ℤ)
    (numFolds : ℕ) (esf : ℚ) :
    ∀ (ps : List (List String)) (res res' : ErrorResults),
      errorResInv targets.length res →
      errorPairLoop md model targets 3 numFolds esf ps res = Except.ok res' →
      errorResInv targets.length res' := by
  intro ps
  induction ps with
  | nil =>
    intro res res' hres heq
    simp only [errorPairLoop] at heq
    rw [← Except.ok.inj heq]
    exact hres
  | cons pair ps ih =>
    intro res res' hres heq
    simp only [errorPairLoop] at heq
    rcases hidx : pyIdx pair 0 with e | utype
    · rw [hidx] at heq
      simp at heq
    · rw [hidx] at heq
      dsimp only at heq
      rcases hpf : errorProcessFolds md utype targets 3 numFolds esf with e | acc
      · rw [hpf] at heq
        simp at heq
      · rw [hpf] at heq
        dsimp only at heq
        have hacc : errorAccInv 3 targets.length acc := by
          unfold errorProcessFolds at hpf
          exact errorFoldLoop_inv md utype targets esf (List.range numFolds)
            (errorInitAcc 3 targets.length) acc
            (errorAccInv_init 3 targets.length) hpf
        exact ih (errorAggregate res model utype acc) res'
          (errorResInv_aggregate model utype hres hacc) heq

theorem jaccPairLoop_inv (md : ModelData) (model : String) (targets : List ℤ)
    (onb numFolds : ℕ) (cmb : Bool) :
    ∀ (ps : List (List String)) (res res' : JaccResults),
      jaccResInv targets.length res →
      jaccPairLoop md model targets 3 onb numFolds cmb ps res = Except.ok res' →
      jaccResInv targets.length res' := by
  intro ps
  induction ps with
  | nil =>
    intro res res' hres heq
    simp only [jaccPairLoop] at heq
    rw [← Except.ok.inj heq]
    exact hres
  | cons pair ps ih =>
    intro res res' hres heq
    simp only [jaccPairLoop] at heq
    rcases hidx : pyIdx pair 0 with e | utype
    · rw [hidx] at heq
      simp at heq
    · rw [hidx] at heq
      dsimp only at heq
      rcases hpf : jaccProcessFolds md utype targets 3 onb numFolds cmb with e | acc
      · rw [hpf] at heq
        simp at heq
      · rw [hpf] at heq
        dsimp only at heq
        have hacc : jaccAccInv 3 targets.length acc := by
          unfold jaccProcessFolds at hpf
          exact jaccFoldLoop_inv md utype targets onb cmb (List.range numFolds)
            (jaccInitAcc 3 targets.length) acc
            (jaccAccInv_init 3 targets.length) hpf
        exact ih (jaccAggregate res model utype acc) res'
          (jaccResInv_aggregate model utype hres hacc) heq

theorem boundModelLoop_inv (eb : Option EstBounds) (targets : List ℤ)
    (numFolds : ℕ) (pairs : List (List String)) :
    ∀ (ms : List (String × ModelData)) (res res' : BoundResults),
      boundResInv targets.length res →
      boundModelLoop eb targets 3 numFolds pairs ms res = Except.ok res' →
      boundResInv targets.length res' := by
  intro ms
  induction ms with
  | nil =>
    intro res res' hres heq
    simp only [boundModelLoop] at heq
    rw [← Except.ok.inj heq]
    exact hres
  | cons m ms ih =>
    intro res res' hres heq
    rcases m with ⟨model, md⟩
    simp only [boundModelLoop] at heq
    rcases hpl : boundPairLoop md model eb targets 3 numFolds pairs res with e | res2
    · rw [hpl] at heq
      simp at heq
    · rw [hpl] at heq
      exact ih res2 res'
        (boundPairLoop_inv md model eb targets numFolds pairs res res2 hres hpl) heq

theorem errorModelLoop_inv (targets : List ℤ) (numFolds : ℕ) (esf : ℚ)
    (pairs : List (List String)) :
    ∀ (ms : List (String × ModelData)) (res res' : ErrorResults),
      errorResInv targets.length res →
      errorModelLoop targets 3 numFolds esf pairs ms res = Except.ok res' →
      errorResInv targets.length res' := by
  intro ms
  induction ms with
  | nil =>
    intro res res' hres heq
    simp only [errorModelLoop] at heq
    rw [← Except.ok.inj heq]
    exact hres
  | cons m ms ih =>
    intro res res' hres heq
    rcases m with ⟨model, md⟩
    simp only [errorModelLoop] at heq
    rcases hpl : errorPairLoop md model targets 3 numFolds esf pairs res with e | res2
    · rw [hpl] at heq
      simp at heq
    · rw [hpl] at heq
      exact ih res2 res'
        (errorPairLoop_inv md model targets numFolds esf pairs res res2 hres hpl) heq

theorem jaccModelLoop_inv (targets : List ℤ) (onb numFolds : ℕ) (cmb : Bool)
    (pairs : List (List String)) :
    ∀ (ms : List (String × ModelData)) (res res' : JaccResults),
      jaccResInv targets.length res →
      jaccModelLoop targets 3 onb numFolds cmb pairs ms res = Except.ok res' →
      jaccResInv targets.length res' := by
  intro ms
  induction ms with
  | nil =>
    intro res res' hres heq
    simp only [jaccModelLoop] at heq
    rw [← Except.ok.inj heq]
    exact hres
  | cons m ms ih =>
    intro res res' hres heq
    rcases m with ⟨model, md⟩
    simp only [jaccModelLoop] at heq
    rcases hpl : jaccPairLoop md model targets 3 onb numFolds cmb pairs res
      with e | res2
    · rw [hpl] at heq
      simp at heq
    · rw [hpl] at heq
      exact ih res2 res'
        (jaccPairLoop_inv md model targets onb numFolds cmb pairs res res2 hres hpl)
        heq

/-- C10: with `combine_middle_bins` every evaluator works on exactly 3 bins
whatever `num_bins` was passed: the bound and mean-error evaluations are
literally independent of `num_bins`; the Jaccard evaluation keeps `num_bins`
only as the quantile count for the ground-truth thresholds while scoring 3
bins; and every bin-indexed axis of any successfully returned result
structure of the three evaluators has length 3. -/
theorem C10_combine_forces_three_bins (eb : Option EstBounds)
    (binPredictions : List (String × ModelData)) (pairs : List (List String))
    (numBins : ℕ) (targets : List ℤ) (numFolds : ℕ) (errorScalingFactor : ℚ) :
    evaluate_bounds eb binPredictions pairs numBins targets numFolds true =
      evaluate_bounds eb binPredictions pairs 3 targets numFolds true ∧
    get_mean_errors binPredictions pairs numBins targets numFolds
        errorScalingFactor true =
      get_mean_errors binPredictions pairs 3 targets numFolds
        errorScalingFactor true ∧
    evaluate_jaccard binPredictions pairs numBins targets numFolds true =
      jaccModelLoop targets 3 numBins numFolds true pairs binPredictions
        (jaccInitResults targets.length) ∧
    (∀ res, evaluate_bounds eb binPredictions pairs numBins targets numFolds true =
      Except.ok res → boundBinAxes3 res) ∧
    (∀ res, get_mean_errors binPredictions pairs numBins targets numFolds
      errorScalingFactor true = Except.ok res → errorBinAxes3 res) ∧
    (∀ res, evaluate_jaccard binPredictions pairs numBins targets numFolds true =
      Except.ok res → jaccBinAxes3 res) := by
  refine ⟨rfl, rfl, rfl, ?_, ?_, ?_⟩
  · intro res heq
    have h := boundModelLoop_inv eb targets numFolds pairs binPredictions
      (boundInitResults targets.length) res (boundResInv_init targets.length) heq
    exact ⟨h.1, h.2.1, h.2.2.2.1, h.2.2.2.2.2⟩
  · intro res heq
    have h := errorModelLoop_inv targets numFolds errorScalingFactor pairs
      binPredictions (errorInitResults targets.length) res
      (errorResInv_init targets.length) heq
    exact ⟨h.1, h.2.1, h.2.2.1, h.2.2.2.2.1, h.2.2.2.2.2.2⟩
  · intro res heq
    have h := jaccModelLoop_inv targets numBins numFolds true pairs
      binPredictions (jaccInitResults targets.length) res
      (jaccResInv_init targets.length) heq
    exact ⟨h.1, h.2.1, h.2.2.1, h.2.2.2.1, h.2.2.2.2.1, h.2.2.2.2.2.1,
      h.2.2.2.2.2.2.2.1, h.2.2.2.2.2.2.2.2.2⟩

/-- Witness for C10 at a concrete input: one model `"m"`, one uncertainty
type `"u"`, one target, one fold, three samples predicted into bins 0, 1, 2,
and `num_bins = 5` with `combine_middle_bins`; all three evaluators succeed
and every bin-indexed axis of each result has length 3. -/
theorem C10_witness :
    evaluate_bounds (some [("m Error Bounds", [(0, [("u", [[(15 : ℚ), 25]])])])])
      [("m", [("u", [⟨1, 0, 0, 10, 0⟩, ⟨2, 0, 0, 20, 1⟩, ⟨3, 0, 0, 30, 2⟩])])]
      [["u"]] 5 [0] 1 true =
      Except.ok ⟨[("m u", [[1], [1], [1]])], [("m u", [[1], [1], [1]])],
        [[("m u", [[1], [1], [1]])]], [[("m u", [[1], [1], [1]])]]⟩ ∧
    boundBinAxes3 ⟨[("m u", [[1], [1], [1]])], [("m u", [[1], [1], [1]])],
        [[("m u", [[1], [1], [1]])]], [[("m u", [[1], [1], [1]])]]⟩ ∧
    get_mean_errors
      [("m", [("u", [⟨1, 0, 0, 10, 0⟩, ⟨2, 0, 0, 20, 1⟩, ⟨3, 0, 0, 30, 2⟩])])]
      [["u"]] 5 [0] 1 1 true =
      Except.ok ⟨[("m u", [[some 30], [some 20], [some 10]])],
        [("m u", [[30], [20], [10]])], [("m u", [[30], [20], [10]])],
        [[("m u", [[[30]], [[20]], [[10]]])]], [[("m u", [[30], [20], [10]])]]⟩ ∧
    errorBinAxes3 ⟨[("m u", [[some 30], [some 20], [some 10]])],
        [("m u", [[30], [20], [10]])], [("m u", [[30], [20], [10]])],
        [[("m u", [[[30]], [[20]], [[10]]])]], [[("m u", [[30], [20], [10]])]]⟩ ∧
    evaluate_jaccard
      [("m", [("u", [⟨1, 0, 0, 10, 0⟩, ⟨2, 0, 0, 20, 1⟩, ⟨3, 0, 0, 30, 2⟩])])]
      [["u"]] 5 [0] 1 true =
      Except.ok ⟨[("m u", [[1], [1], [1]])], [("m u", [[1], [1], [1]])],
        [("m u", [[1], [1], [1]])], [("m u", [[1], [1], [1]])],
        [("m u", [[1], [1], [1]])], [("m u", [[1], [1], [1]])],
        [[("m u", [[1], [1], [1]])]], [[("m u", [[1], [1], [1]])]]⟩ ∧
    jaccBinAxes3 ⟨[("m u", [[1], [1], [1]])], [("m u", [[1], [1], [1]])],
        [("m u", [[1], [1], [1]])], [("m u", [[1], [1], [1]])],
        [("m u", [[1], [1], [1]])], [("m u", [[1], [1], [1]])],
        [[("m u", [[1], [1], [1]])]], [[("m u", [[1], [1], [1]])]]⟩ := by
  have hb : evaluate_bounds
      (some [("m Error Bounds", [(0, [("u", [[(15 : ℚ), 25]])])])])
      [("m", [("u", [⟨1, 0, 0, 10, 0⟩, ⟨2, 0, 0, 20, 1⟩, ⟨3, 0, 0, 30, 2⟩])])]
      [["u"]] 5 [0] 1 true =
      Except.ok ⟨[("m u", [[1], [1], [1]])], [("m u", [[1], [1], [1]])],
        [[("m u", [[1], [1], [1]])]], [[("m u", [[1], [1], [1]])]]⟩ := by
    simp [evaluate_bounds, boundModelLoop, boundPairLoop, boundProcessFolds,
      boundFoldLoop, boundStep, boundInitAcc, boundAccumulate, boundInitResults,
      boundAggregate, extractFoldData, foldBoundsOf, pyFalsyBounds, pyFalsyStr,
      bin_wise_bound_eval, boundEvalTarget, groupErrors, exMapM, binIds, scanLookup,
      targetErrsMap, targetBinsMap, accuracyBin, innerBinCorrect, boundMember,
      weightedAveBin, listMean, pyIdx, updAssoc, lookupRes, appendEach, concatEach,
      concatNested, List.filter, List.range_succ, List.enum, List.enumFrom,
      List.mapIdx_cons, List.mapIdx_nil, List.replicate,
      show ("m".isEmpty) = false from rfl]
    norm_num
  have he : get_mean_errors
      [("m", [("u", [⟨1, 0, 0, 10, 0⟩, ⟨2, 0, 0, 20, 1⟩, ⟨3, 0, 0, 30, 2⟩])])]
      [["u"]] 5 [0] 1 1 true =
      Except.ok ⟨[("m u", [[some 30], [some 20], [some 10]])],
        [("m u", [[30], [20], [10]])], [("m u", [[30], [20], [10]])],
        [[("m u", [[[30]], [[20]], [[10]]])]], [[("m u", [[30], [20], [10]])]]⟩ := by
    simp [get_mean_errors, errorModelLoop, errorPairLoop, errorProcessFolds,
      errorFoldLoop, errorInitAcc, errorAccumulate, errSepAllUpd, noSepFlatten,
      errorInitResults, errorAggregate, extractFoldData, bin_wise_errors,
      errorsTarget, groupErrors, exMapM, binIds, scanLookup, targetErrsMap,
      targetBinsMap, listMean, pyIdx, updAssoc, appendEach, concatEach,
      concatNested, List.reduceOption, List.filter, List.filterMap,
      List.range_succ, List.mapIdx_cons, List.mapIdx_nil, List.replicate]
  have hth : gtThresholds [(1, 10), (2, 20), (3, 30)] 5 = [14, 18, 22, 26] := by
    unfold gtThresholds quantilePoints sortedErrors npQuantile npQuantileSorted
    simp [List.insertionSort, List.orderedInsert, List.range_succ]
    norm_num [Int.fract]
  have hgt : gtGroupsUsed [(1, 10), (2, 20), (3, 30)] 5 true =
      Except.ok [[1], [2], [3]] := by
    unfold gtGroupsUsed combineThresholds
    rw [hth]
    simp [keyGroupsOf, groupCond, List.range_succ, List.filter]
    norm_num
  have hjs : ∀ a : ℕ, jaccard_similarity [a] [a] = 1 := by
    intro a
    unfold jaccard_similarity
    simp
  have hrp : ∀ a : ℕ, recallPrecision [a] [a] = (1, 1) := by
    intro a
    unfold recallPrecision
    simp
  have hj : evaluate_jaccard
      [("m", [("u", [⟨1, 0, 0, 10, 0⟩, ⟨2, 0, 0, 20, 1⟩, ⟨3, 0, 0, 30, 2⟩])])]
      [["u"]] 5 [0] 1 true =
      Except.ok ⟨[("m u", [[1], [1], [1]])], [("m u", [[1], [1], [1]])],
        [("m u", [[1], [1], [1]])], [("m u", [[1], [1], [1]])],
        [("m u", [[1], [1], [1]])], [("m u", [[1], [1], [1]])],
        [[("m u", [[1], [1], [1]])]], [[("m u", [[1], [1], [1]])]]⟩ := by
    simp [evaluate_jaccard, jaccModelLoop, jaccPairLoop, jaccProcessFolds,
      jaccFoldLoop, jaccInitAcc, jaccAccumulate, jaccInitResults, jaccAggregate,
      jaccProcessSingleFold, extractFoldData, bin_wise_jaccard, jaccardTarget,
      exMapM, targetErrsMap, targetBinsMap, groupErrors, binIds, scanLookup,
      hgt, hjs, hrp, predGroupsR, jaccBinStep, pyIdx, listMean, updAssoc,
      appendEach, concatEach, concatNested, List.filter, List.range_succ,
      List.mapIdx_cons, List.mapIdx_nil, List.replicate]
  have hC := C10_combine_forces_three_bins
    (some [("m Error Bounds", [(0, [("u", [[(15 : ℚ), 25]])])])])
    [("m", [("u", [⟨1, 0, 0, 10, 0⟩, ⟨2, 0, 0, 20, 1⟩, ⟨3, 0, 0, 30, 2⟩])])]
    [["u"]] 5 [0] 1 1
  exact ⟨hb, hC.2.2.2.1 _ hb, he, hC.2.2.2.2.1 _ he, hj, hC.2.2.2.2.2 _ hj⟩

end UncertaintyMetrics
